import Mathlib

/-!
Shallow embedding of the gosqlite repository (files trx.go and btree_ex.go)
and verification of its specification claims.

The MVCC transaction engine is embedded first: pools are Lean lists, Go
pointers into the pools are indices, and Go nil-pointer dereferences are
modelled by `Except Unit` (`.error ()` marks a runtime fault).  The B+ tree
follows, with the 16 KiB page image embedded as a byte-addressed function
`Nat → Nat` and every Go slice write modelled as a pointwise update.
-/

namespace Gosqlite

/-! ### MVCC data model (trx.go) -/

/-- Transaction status constants from the source. -/
def uncommit : Int := 1

def commit : Int := 2

def unused : Int := 0

def rollback : Int := 3

mutual

/-- A transaction: id, status and an optional read view (Go: nil pointer
before `Begin`).  In Go a read view stores copies of whole `Trx` values,
hence the mutual inductive. -/
inductive Trx : Type where
  | mk (trxID : Int) (status : Int) (view : Option readView)

/-- Read view captured at `Begin`: low and up limits plus the list of
transactions that were uncommitted when the view was created. -/
inductive readView : Type where
  | mk (lowLimitID : Int) (upLimitID : Int) (trxIDs : List Trx)

end

def Trx.trxID : Trx → Int
  | .mk a _ _ => a

def Trx.status : Trx → Int
  | .mk _ s _ => s

def Trx.view : Trx → Option readView
  | .mk _ _ v => v

def readView.lowLimitID : readView → Int
  | .mk a _ _ => a

def readView.upLimitID : readView → Int
  | .mk _ b _ => b

def readView.trxIDs : readView → List Trx
  | .mk _ _ l => l

instance : Inhabited Trx := ⟨Trx.mk 0 0 none⟩

instance : Inhabited readView := ⟨readView.mk 0 0 []⟩

/-- A row: Go struct `record`.  `rollPtr` is a pointer to an undo-pool
entry, modelled as an index into the undo pool. -/
structure record where
  rowID : Int := 0
  trxID : Int := 0
  rollPtr : Option Nat := none
  data : String := ""
deriving Repr, DecidableEq, Inhabited

/-- The transaction context: three pools plus two counters. -/
structure TrxContext where
  trxIDs : List Trx
  dataPool : List record
  undo : List record
  trxCounter : Int
  rowCounter : Int

/-- `CreateTrxContext`: three pools of 1024 zero entries, counters at 0. -/
def CreateTrxContext : TrxContext :=
  { trxIDs := List.replicate 1024 (Trx.mk 0 unused none)
    dataPool := List.replicate 1024 {}
    undo := List.replicate 1024 {}
    trxCounter := 0
    rowCounter := 0 }

/-- First index (counting from `i`) whose element satisfies `p`; this is the
linear scan all three Go allocators use.  Go returns a nil pointer when the
scan fails; we return `none`. -/
def scanIdx {α : Type} (p : α → Bool) : List α → Nat → Option Nat
  | [], _ => none
  | x :: xs, i => if p x then some i else scanIdx p xs (i + 1)

/-- `AllocteTrx`: first pool slot whose status is `unused` (the slot is not
marked in any way; only `Begin` changes its status). -/
def TrxContext.AllocteTrx (ctx : TrxContext) : Option Nat :=
  scanIdx (fun t => t.status == unused) ctx.trxIDs 0

/-- `allocteUndo`: scans `len(context.trxIDs)` entries of the undo pool for
the first with `rowID == 0`.  (The Go loop bound really is the transaction
pool length; pools all have length 1024.) -/
def TrxContext.allocteUndo (ctx : TrxContext) : Option Nat :=
  scanIdx (fun r => r.rowID == 0) (ctx.undo.take ctx.trxIDs.length) 0

/-- `allocteRecord`: first data-pool entry with `rowID == 0`, scanning
`len(context.trxIDs)` entries. -/
def TrxContext.allocteRecord (ctx : TrxContext) : Option Nat :=
  scanIdx (fun r => r.rowID == 0) (ctx.dataPool.take ctx.trxIDs.length) 0

/-- `findRecord`: first data-pool entry whose `rowID` field equals the
argument.  Note that free slots have `rowID == 0`, so looking up row id 0
finds the first free slot. -/
def TrxContext.findRecord (ctx : TrxContext) (rowID : Int) : Option Nat :=
  scanIdx (fun r => r.rowID == rowID) (ctx.dataPool.take ctx.trxIDs.length) 0

/-- The read-view collection loop: append every pool entry whose status is
`uncommit`, in pool-encounter order. -/
def uncommittedOf : List Trx → List Trx
  | [] => []
  | t :: ts => if t.status == uncommit then t :: uncommittedOf ts else uncommittedOf ts

/-- `createReadView`: collect the uncommitted entries; `lowLimitID` is the
first one's id and `upLimitID` the last one's id, 0 when there are none. -/
def TrxContext.createReadView (ctx : TrxContext) : readView :=
  let ids := uncommittedOf ctx.trxIDs
  let low := match ids with
    | [] => 0
    | t :: _ => t.trxID
  let up := match ids.getLast? with
    | none => 0
    | some t => t.trxID
  readView.mk low up ids

/-- The first half of `Begin`: increment the counter, then assign the new
id and the `uncommit` status to slot `i` (the view is not yet touched). -/
def beginMark (ctx : TrxContext) (i : Nat) : TrxContext :=
  let c := { ctx with trxCounter := ctx.trxCounter + 1 }
  let told := c.trxIDs.getD i default
  { c with trxIDs := c.trxIDs.set i (Trx.mk c.trxCounter uncommit told.view) }

/-- `Begin` on the transaction in pool slot `i`: mark it uncommitted with a
fresh id, then capture the read view from the pool in which the caller is
already marked. -/
def Trx.Begin (ctx : TrxContext) (i : Nat) : TrxContext :=
  let c := beginMark ctx i
  let v := c.createReadView
  let t := c.trxIDs.getD i default
  { c with trxIDs := c.trxIDs.set i (Trx.mk t.trxID t.status (some v)) }

/-- `Commit`: status becomes `commit`; nothing else changes. -/
def Trx.Commit (ctx : TrxContext) (i : Nat) : TrxContext :=
  let t := ctx.trxIDs.getD i default
  { ctx with trxIDs := ctx.trxIDs.set i (Trx.mk t.trxID commit t.view) }

/-- `Rollback`: status becomes `rollback`; nothing else changes. -/
def Trx.Rollback (ctx : TrxContext) (i : Nat) : TrxContext :=
  let t := ctx.trxIDs.getD i default
  { ctx with trxIDs := ctx.trxIDs.set i (Trx.mk t.trxID rollback t.view) }

/-- `Insert`: allocate a free data-pool slot and fill it.  When the pool is
exhausted the Go code dereferences the nil pointer returned by
`allocteRecord` (`r.data = ...`), which is a runtime fault: `.error ()`. -/
def Trx.Insert (ctx : TrxContext) (i : Nat) (data : String) : Except Unit TrxContext :=
  match ctx.allocteRecord with
  | none => .error ()
  | some ri =>
    let t := ctx.trxIDs.getD i default
    let r := ctx.dataPool.getD ri default
    let c := { ctx with rowCounter := ctx.rowCounter + 1 }
    let r := { r with data := data, trxID := t.trxID, rowID := c.rowCounter }
    .ok { c with dataPool := c.dataPool.set ri r }

/-- `Update`: locate the record by row id, allocate an undo entry, copy the
record's current version into it, prepend it to the chain, then overwrite
the record.  If either `findRecord` or `allocteUndo` comes back nil the Go
code immediately dereferences it (`u.trxID = r.trxID`): `.error ()`. -/
def Trx.Update (ctx : TrxContext) (i : Nat) (rowid : Int) (data : String) :
    Except Unit TrxContext :=
  match ctx.findRecord rowid, ctx.allocteUndo with
  | some ri, some ui =>
    let r := ctx.dataPool.getD ri default
    let u := ctx.undo.getD ui default
    let u := { u with trxID := r.trxID, data := r.data }
    let ru : record × record :=
      match r.rollPtr with
      | none => ({ r with rollPtr := some ui }, u)
      | some u1 => ({ r with rollPtr := some ui }, { u with rollPtr := some u1 })
    let t := ctx.trxIDs.getD i default
    let r2 := { ru.1 with trxID := t.trxID, data := data }
    .ok { ctx with dataPool := ctx.dataPool.set ri r2, undo := ctx.undo.set ui ru.2 }
  | _, _ => .error ()

/-- Membership scan of a view's transaction list, as in Go `inView`. -/
def hasTrxID : List Trx → Int → Bool
  | [], _ => false
  | t :: ts, tid => if t.trxID == tid then true else hasTrxID ts tid

/-- The view of a transaction; Go dereferences `t.view` (nil before
`Begin`, a fault); we totalize with the zero view, and every theorem about
visibility instantiates `t.view = some v`. -/
def Trx.viewD (t : Trx) : readView :=
  t.view.getD (readView.mk 0 0 [])

/-- `inView`: linear scan of the view's copied transactions for `tid`. -/
def Trx.inView (t : Trx) (tid : Int) : Bool :=
  hasTrxID t.viewD.trxIDs tid

/-- `check`, the visibility predicate: own id first, then the window
comparison against the read view. -/
def Trx.check (t : Trx) (tid : Int) : Bool :=
  if t.trxID == tid then true
  else
    let tmin := t.viewD.lowLimitID
    let tmax := t.viewD.upLimitID
    if tid < tmin then true
    else if tid > tmax then false
    else if t.inView tid then false
    else true

/-- The undo-chain walk of `selectRollback`, with fuel because the Go list
can be made cyclic (see the C6 analysis); Go would loop forever in that
case, we stop after pool-size steps. -/
def walkUndo (undo : List record) (t : Trx) : Option Nat → Nat → Option String
  | _, 0 => none
  | none, _ => none
  | some p, fuel + 1 =>
    let r := undo.getD p default
    if t.check r.trxID then some r.data
    else walkUndo undo t r.rollPtr fuel

/-- `selectRollback`: emit the first undo version visible to `t`. -/
def Trx.selectRollback (ctx : TrxContext) (t : Trx) (r : record) : Option String :=
  walkUndo ctx.undo t r.rollPtr (ctx.undo.length + 1)

/-- The body of `Select` for one record: the current version when visible,
otherwise the undo-chain walk. -/
def selectOne (ctx : TrxContext) (t : Trx) (r : record) : Option (Int × String) :=
  if t.check r.trxID then some (r.rowID, r.data)
  else
    match t.selectRollback ctx r with
    | some d => some (r.rowID, d)
    | none => none

/-- `Select`: scan the data pool and emit each live row's visible version.
The Go function only prints; it performs no state mutation, so it is
modelled as a pure function of the context. -/
def Trx.Select (ctx : TrxContext) (i : Nat) : List (Int × String) :=
  let t := ctx.trxIDs.getD i default
  ctx.dataPool.foldr
    (fun r acc =>
      if r.rowID > 0 then
        match selectOne ctx t r with
        | some e => e :: acc
        | none => acc
      else acc) []

/-! ### B+ tree data model (btree_ex.go)

The backing byte image is a function from byte addresses to byte values;
`Mem.write` is a pointwise update.  Page accessors take absolute addresses
`page * pageSize + offset`, matching Go's `getPageData` slicing.  All
multi-byte integers are big-endian, stored modulo 2^32 / 2^64 exactly as
`encoding/binary` does. -/

set_option exponentiation.threshold 20000

def pageSize : Nat := 512

def rootPageNo : Nat := 1

def nodeTypeInternal : Nat := 1

def nodeTypeLeaf : Nat := 2

def nodeUsed : Nat := 1

def nodeUnused : Nat := 0

def offsetPageNo : Nat := 0

def offsetNodeType : Nat := 4

def offsetUsed : Nat := 5

def offsetParent : Nat := 8

def offsetUsablePtr : Nat := 12

def offsetNumberOfKey : Nat := 32

def offsetKey : Nat := 36

def offsetPayload : Nat := pageSize - 8

def offsetNext : Nat := pageSize - 8

/-- The flat byte image: the backing byte array of the Go tree, encoded
as one natural number whose base-256 digit at position `a` is the byte at
address `a`.  A fresh all-zero image is the number 0. -/
abbrev Mem : Type := Nat

/-- Byte read: digit extraction. -/
def Mem.read (m : Mem) (a : Nat) : Nat := m / 256 ^ a % 256

/-- Byte write: replace the digit at `a` (byte values are always below
256 at every call site, exactly as Go's `byte` stores). -/
def Mem.write (m : Mem) (a v : Nat) : Mem :=
  m - m / 256 ^ a % 256 * 256 ^ a + v % 256 * 256 ^ a

/-- `ceil` from the source: `math.Ceil(float64(n) / 2)`, which for the
natural orders used here is exactly `(n + 1) / 2`. -/
def ceil (n : Nat) : Nat := (n + 1) / 2

/-- Go uint32 subtraction (wraps modulo 2^32). -/
def sub32 (a b : Nat) : Nat := (a + (4294967296 - b % 4294967296)) % 4294967296

/-- Go conversion of an int to uint32 (two's complement wrap). -/
def int2u32 (x : Int) : Nat := (x % 4294967296).toNat

/-- `binary.BigEndian.PutUint32`. -/
def setInt32 (m : Mem) (off v : Nat) : Mem :=
  let w := v % 4294967296
  ((((m.write off (w / 16777216 % 256)).write (off + 1) (w / 65536 % 256)).write
    (off + 2) (w / 256 % 256)).write (off + 3) (w % 256))

/-- `binary.BigEndian.Uint32`. -/
def getInt32 (m : Mem) (off : Nat) : Nat :=
  m.read off * 16777216 + m.read (off + 1) * 65536 + m.read (off + 2) * 256 + m.read (off + 3)

/-- `binary.BigEndian.PutUint64`. -/
def setInt64 (m : Mem) (off v : Nat) : Mem :=
  let w := v % 18446744073709551616
  ((((((((m.write off (w / 72057594037927936 % 256)).write
    (off + 1) (w / 281474976710656 % 256)).write
    (off + 2) (w / 1099511627776 % 256)).write
    (off + 3) (w / 4294967296 % 256)).write
    (off + 4) (w / 16777216 % 256)).write
    (off + 5) (w / 65536 % 256)).write
    (off + 6) (w / 256 % 256)).write
    (off + 7) (w % 256))

/-- `binary.BigEndian.Uint64`. -/
def getInt64 (m : Mem) (off : Nat) : Nat :=
  m.read off * 72057594037927936 + m.read (off + 1) * 281474976710656 +
  m.read (off + 2) * 1099511627776 + m.read (off + 3) * 4294967296 +
  m.read (off + 4) * 16777216 + m.read (off + 5) * 65536 +
  m.read (off + 6) * 256 + m.read (off + 7)

def getPageInt32 (m : Mem) (page : Nat) (off : Nat) : Nat :=
  getInt32 m (page * pageSize + off)

def setPageInt32 (m : Mem) (page : Nat) (off v : Nat) : Mem :=
  setInt32 m (page * pageSize + off) v

def setPageNo (m : Mem) (page v : Nat) : Mem := setPageInt32 m page offsetPageNo v

def getPageNo (m : Mem) (page : Nat) : Nat := getPageInt32 m page offsetPageNo

def setNext (m : Mem) (page v : Nat) : Mem := setPageInt32 m page offsetNext v

def getNext (m : Mem) (page : Nat) : Nat := getPageInt32 m page offsetNext

def setNumberOfKey (m : Mem) (page v : Nat) : Mem := setPageInt32 m page offsetNumberOfKey v

def getNumberOfKey (m : Mem) (page : Nat) : Nat := getPageInt32 m page offsetNumberOfKey

def setNodeType (m : Mem) (page v : Nat) : Mem :=
  m.write (page * pageSize + offsetNodeType) v

def getNodeType (m : Mem) (page : Nat) : Nat :=
  m.read (page * pageSize + offsetNodeType)

def setUsed (m : Mem) (page v : Nat) : Mem :=
  m.write (page * pageSize + offsetUsed) v

def isUsed (m : Mem) (page : Nat) : Bool :=
  m.read (page * pageSize + offsetUsed) == nodeUsed

def setParent (m : Mem) (page v : Nat) : Mem := setPageInt32 m page offsetParent v

def getParent (m : Mem) (page : Nat) : Nat := getPageInt32 m page offsetParent

/-- Slot offsets.  The index is an `Int` because Go calls `getKey` with
index `numberOfKey - 1`, which is -1 on an empty node; the resulting
offset `36 - 12 = 24` is still inside the page header, and Go happily
reads the (zero) header bytes there. -/
def keyOffset (index : Int) : Nat := (36 + index * 12).toNat

def cellPtrOffset (index : Int) : Nat := (36 + index * 12 + 8).toNat

def setKey (m : Mem) (page : Nat) (index : Int) (k : Nat) : Mem :=
  setInt64 m (page * pageSize + keyOffset index) k

def getKey (m : Mem) (page : Nat) (index : Int) : Nat :=
  getInt64 m (page * pageSize + keyOffset index)

def setCellPtr (m : Mem) (page : Nat) (index : Int) (k : Nat) : Mem :=
  setInt32 m (page * pageSize + cellPtrOffset index) k

def getCellPtr (m : Mem) (page : Nat) (index : Int) : Nat :=
  getInt32 m (page * pageSize + cellPtrOffset index)

def setUsablePtr (m : Mem) (page ptr : Nat) : Mem := setPageInt32 m page offsetUsablePtr ptr

def getUsablePtr (m : Mem) (page : Nat) : Nat := getPageInt32 m page offsetUsablePtr

def getMaxKey (m : Mem) (page : Nat) : Nat :=
  getKey m page ((getNumberOfKey m page : Int) - 1)

/-- The linear key scan of `getKeyIndex`; Go returns -1 on failure, we
return `none`. -/
def getKeyIndexGo (m : Mem) (page key : Nat) : Nat → Nat → Option Nat
  | _, 0 => none
  | i, c + 1 => if getKey m page (i : Int) = key then some i else getKeyIndexGo m page key (i + 1) c

def getKeyIndex (m : Mem) (page key : Nat) : Option Nat :=
  getKeyIndexGo m page key 0 (getNumberOfKey m page)

/-- The big-endian bytes of a uint32, as produced by `PutUint32`. -/
def u32bytes (v : Nat) : List Nat :=
  let w := v % 4294967296
  [w / 16777216 % 256, w / 65536 % 256, w / 256 % 256, w % 256]

/-- `blockCopy(data, srcOffset, cell, 0, count)` where the source is the
512-byte page slice: Go's bounds check failure is silently ignored by
every caller, leaving the (zeroed) destination untouched. -/
def blockCopyFromPage (m : Mem) (page srcOffset : Nat) (dst : List Nat) : List Nat :=
  let count := dst.length
  if srcOffset > 512 ∨ count > 512 ∨ srcOffset + count > 512 then dst
  else (List.range count).map (fun i => m.read (page * pageSize + srcOffset + i))

/-- Sequential byte copy into the image. -/
def copyBytes : List Nat → Mem → Nat → Mem
  | [], m, _ => m
  | b :: rest, m, a => copyBytes rest (m.write a b) (a + 1)

/-- `blockCopy(cell, 0, data, dstOffset, len(cell))` where the destination
is the 512-byte page slice.  A negative `dstOffset` would make Go fault on
the first write; that path is unreachable in every state we evaluate and
is modelled as a no-op. -/
def blockCopyToPage (cell : List Nat) (m : Mem) (page : Nat) (dstOffset : Int) : Mem :=
  let count := cell.length
  if dstOffset < 0 ∨ dstOffset > 512 ∨ count > 512 ∨ dstOffset + count > 512 then m
  else copyBytes cell m (page * pageSize + dstOffset.toNat)

/-- `getKeyCell`: nil when the key is absent; on a leaf an
`8 + payload_len` byte cell, on an internal node a 4-byte cell. -/
def getKeyCell (m : Mem) (page key : Nat) : Option (List Nat) :=
  match getKeyIndex m page key with
  | none => none
  | some index =>
    let offset := getCellPtr m page (index : Int)
    if getNodeType m page = nodeTypeLeaf then
      let payloadSize := getInt32 m (page * pageSize + offset + 4)
      some (blockCopyFromPage m page offset (List.replicate (8 + payloadSize) 0))
    else
      some (blockCopyFromPage m page offset (List.replicate 4 0))

/-- `len` of a possibly-nil Go slice. -/
def cellLen : Option (List Nat) → Nat
  | none => 0
  | some c => c.length

/-- `binary.BigEndian.Uint32(cell)`.  Go faults when the cell is nil or
shorter than 4 bytes; neither happens on any path we evaluate, and the
nil case is totalized to 0. -/
def cellUint32 : Option (List Nat) → Nat
  | none => 0
  | some c => c.getD 0 0 * 16777216 + c.getD 1 0 * 65536 + c.getD 2 0 * 256 + c.getD 3 0

def getChildByKey (m : Mem) (page key : Nat) : Nat :=
  cellUint32 (getKeyCell m page key)

def getChildByIndex (m : Mem) (page : Nat) (index : Int) : Nat :=
  getChildByKey m page (getKey m page index)

def getChild (m : Mem) (page : Nat) (index : Int) : Nat :=
  getChildByIndex m page index

/-- `getKeyPayload`: on a leaf, the bytes after the 8-byte cell prefix.
When the key is absent on a leaf, the Go code slices the nil cell
(`cell[8:]`), a runtime fault: `.error ()`.  The `Option` in the result is
Go's nil slice returned for internal pages. -/
def getKeyPayload (m : Mem) (page key : Nat) : Except Unit (Option (List Nat)) :=
  match getKeyCell m page key with
  | some cell =>
    if getNodeType m page = nodeTypeLeaf then .ok (some (cell.drop 8)) else .ok none
  | none =>
    if getNodeType m page = nodeTypeLeaf then .error () else .ok none

/-- `getKeyPayload` as the nil-defaulted slice Go hands to `setChild`
inside the split loop (the faulting case is unreachable there: the key
scanned by the loop is present on the page). -/
def getKeyPayloadD (m : Mem) (page key : Nat) : Option (List Nat) :=
  match getKeyPayload m page key with
  | .ok p => p
  | .error _ => none

/-- `marshal`: leaf cell `{child, payload_len, payload}` or internal cell
`{child}`. -/
def marshal (child : Nat) (payload : Option (List Nat)) : List Nat :=
  match payload with
  | some p => u32bytes child ++ u32bytes p.length ++ p
  | none => u32bytes child

/-- `rshift`: move `data[src..src+len)` right by `shiftSize`, iterating
from the top as the source does. -/
def rshiftPage (m : Mem) (base src shiftSize : Nat) : Nat → Mem
  | 0 => m
  | len + 1 =>
    let m2 := m.write (base + src + shiftSize + len) (m.read (base + src + len))
    rshiftPage m2 base src shiftSize len

/-- `lshift`: move left by `shiftSize`, iterating from the bottom. -/
def lshiftPage (m : Mem) (base src shiftSize i : Nat) : Nat → Mem
  | 0 => m
  | rem + 1 =>
    let m2 := m.write (base + src + i - shiftSize) (m.read (base + src + i))
    lshiftPage m2 base src shiftSize (i + 1) rem

/-- `shift`: dispatch on the sign of `shiftSize`. -/
def shiftPage (m : Mem) (base src len : Nat) (shiftSize : Int) : Mem :=
  if shiftSize > 0 then rshiftPage m base src shiftSize.toNat len
  else if shiftSize < 0 then lshiftPage m base src (-shiftSize).toNat 0 len
  else m

/-- The slot-pointer fixup loop of `shiftCellPtr`. -/
def shiftCellPtrLoop (page cellptr : Nat) (shiftSize : Int) : Nat → Nat → Mem → Mem
  | _, 0, m => m
  | i, c + 1, m =>
    let icellPtr := getCellPtr m page (i : Int)
    let m2 := if icellPtr > 0 ∧ icellPtr < cellptr then
        setCellPtr m page (i : Int) (int2u32 ((icellPtr : Int) + shiftSize))
      else m
    shiftCellPtrLoop page cellptr shiftSize (i + 1) c m2

def shiftCellPtr (m : Mem) (page cellptr : Nat) (shiftSize : Int) : Mem :=
  shiftCellPtrLoop page cellptr shiftSize 0 (getNumberOfKey m page) m

/-- `deleteCell`. -/
def deleteCell (m : Mem) (page : Nat) (index : Int) : Mem :=
  let cellptr := getCellPtr m page index
  if cellptr = 0 then m
  else
    let cell := getKeyCell m page (getKey m page index)
    let usablePtr := getUsablePtr m page
    let shiftSize : Int := cellLen cell
    let length := sub32 cellptr usablePtr
    let m2 := if 0 < length then
        shiftCellPtr (shiftPage m (page * pageSize) usablePtr length shiftSize) page cellptr shiftSize
      else m
    let m3 := setUsablePtr m2 page (int2u32 ((usablePtr : Int) + shiftSize))
    setCellPtr m3 page index 0

/-- `insertOrUpdateCell`. -/
def insertOrUpdateCell (m : Mem) (page : Nat) (index : Int) (cell : List Nat) : Mem :=
  let cellPtr := getCellPtr m page index
  if cellPtr = 0 then
    let cellPtr2 := sub32 (getUsablePtr m page) cell.length
    let m2 := setCellPtr m page index cellPtr2
    let m3 := setUsablePtr m2 page cellPtr2
    blockCopyToPage cell m3 page (cellPtr2 : Int)
  else
    match getKeyCell m page (getKey m page index) with
    | some oldCell =>
      let shiftSize : Int := (oldCell.length : Int) - (cell.length : Int)
      let usablePtr := getUsablePtr m page
      let len0 := sub32 cellPtr usablePtr
      let m2 := if 0 < len0 then
          let ms := shiftPage m (page * pageSize) usablePtr len0 shiftSize
          let ms := shiftCellPtr ms page cellPtr shiftSize
          let ms := setUsablePtr ms page (int2u32 ((usablePtr : Int) + shiftSize))
          setCellPtr ms page index (int2u32 ((cellPtr : Int) + shiftSize))
        else m
      blockCopyToPage cell m2 page ((cellPtr : Int) + shiftSize)
    | none =>
      blockCopyToPage cell m page ((cellPtr : Int) + 0)

/-- `setChild`: both branches marshal a cell and store it. -/
def setChild (m : Mem) (page : Nat) (index : Int) (child : Nat)
    (payload : Option (List Nat)) : Mem :=
  insertOrUpdateCell m page index (marshal child payload)

/-- The reparenting loop of `setChildParent`. -/
def setChildParentLoop (page : Nat) : Nat → Nat → Mem → Mem
  | _, 0, m => m
  | i, c + 1, m =>
    let ichild := getChild m page (i : Int)
    setChildParentLoop page (i + 1) c (setParent m ichild page)

def setChildParent (m : Mem) (page : Nat) : Mem :=
  setChildParentLoop page 0 (getNumberOfKey m page) m

/-- `allocte`: scan pages 2..31 for the first unused page, mark it used;
0 is the exhaustion sentinel. -/
def allocteGo (m : Mem) : Nat → Nat → Mem × Nat
  | _, 0 => (m, 0)
  | i, c + 1 => if isUsed m i then allocteGo m (i + 1) c else (setUsed m i nodeUsed, i)

def allocte (m : Mem) : Mem × Nat := allocteGo m 2 30

/-- The 512-byte page copy of `copy`, followed by `setPageNo`. -/
def copyPageLoop (srcBase dstBase : Nat) : Nat → Nat → Mem → Mem
  | _, 0, m => m
  | i, c + 1, m => copyPageLoop srcBase dstBase (i + 1) c (m.write (dstBase + i) (m.read (srcBase + i)))

def copyPage (m : Mem) (src dst : Nat) : Mem :=
  let m2 := copyPageLoop (src * pageSize) (dst * pageSize) 0 512 m
  setPageNo m2 dst dst

/-- The tree object: byte image, leftmost-leaf pointer, order. -/
structure BPlusTree where
  data : Mem
  leaf : Nat
  order : Nat

/-- The routing scan in `searchInternalNode`: smallest slot whose key is
at least the search key. -/
def firstGE (m : Mem) (pageNo key : Nat) : Nat → Nat → Option Nat
  | _, 0 => none
  | i, c + 1 => if key ≤ getKey m pageNo (i : Int) then some i else firstGE m pageNo key (i + 1) c

/-- The routing index: defaults to the last slot (`numberOfKey - 1`, an
`Int` since the node may be empty). -/
def routeIdx (m : Mem) (pageNo key : Nat) : Int :=
  match firstGE m pageNo key 0 (getNumberOfKey m pageNo) with
  | some i => (i : Int)
  | none => (getNumberOfKey m pageNo : Int) - 1

/-- `searchInternalNode`, with fuel standing in for Go's unbounded
recursion (depth is bounded by the 32-page image in any real state). -/
def searchInternalNode (m : Mem) : Nat → Nat → Nat → Nat
  | 0, pageNo, _ => pageNo
  | fuel + 1, pageNo, key =>
    let child := getChild m pageNo (routeIdx m pageNo key)
    if getNodeType m child = nodeTypeLeaf then child
    else searchInternalNode m fuel child key

/-- `search`: the root is page 1; descend if it is internal. -/
def BPlusTree.search (b : BPlusTree) (key : Nat) : Nat :=
  if getNodeType b.data rootPageNo = nodeTypeLeaf then rootPageNo
  else searchInternalNode b.data 32 rootPageNo key

/-- The key-update loop of `updateKey` (rewrites every matching routing
key). -/
def updateKeyLoop (pageNo oldKey newKey : Nat) : Nat → Nat → Mem → Mem
  | _, 0, m => m
  | i, c + 1, m =>
    let m2 := if getKey m pageNo (i : Int) = oldKey then setKey m pageNo (i : Int) newKey else m
    updateKeyLoop pageNo oldKey newKey (i + 1) c m2

def updateKey (m : Mem) (pageNo oldKey newKey : Nat) : Mem :=
  updateKeyLoop pageNo oldKey newKey 0 (getNumberOfKey m pageNo) m

/-- The shift-right loop of `insertAndNotSplit`; returns the state and the
insertion slot `k` (the argument counts the remaining iterations, so the
first processed index is `numberOfKey - 1`). -/
def notSplitLoop (pageNo key : Nat) (m : Mem) : Nat → Mem × Nat
  | 0 => (m, 0)
  | i + 1 =>
    let ikey := getKey m pageNo (i : Int)
    let icellptr := getCellPtr m pageNo (i : Int)
    if ikey < key then (m, i + 1)
    else
      let m2 := setKey m pageNo ((i : Int) + 1) ikey
      let m3 := setCellPtr m2 pageNo ((i : Int) + 1) icellptr
      let m4 := setCellPtr m3 pageNo (i : Int) 0
      notSplitLoop pageNo key m4 i

/-- `insertAndNotSplit`. -/
def insertAndNotSplit (m : Mem) (pageNo key child : Nat) (payload : Option (List Nat)) : Mem :=
  let numberOfKey := getNumberOfKey m pageNo
  let oldMaxKey := getKey m pageNo ((numberOfKey : Int) - 1)
  let mk1 := notSplitLoop pageNo key m numberOfKey
  let m2 := setKey mk1.1 pageNo (mk1.2 : Int) key
  let m3 := setChild m2 pageNo (mk1.2 : Int) child payload
  let newMaxKey := getKey m3 pageNo (numberOfKey : Int)
  let parent := getParent m3 pageNo
  let m4 := if parent ≠ 0 ∧ oldMaxKey ≠ newMaxKey then updateKey m3 parent oldMaxKey newMaxKey else m3
  setNumberOfKey m4 pageNo (numberOfKey + 1)

/-- The redistribution loop of `insertAndSplitKey`, carrying `(m, l, r, k)`
exactly as the Go loop mutates them; `k = 0` doubles as the
"new key already placed" sentinel, which is the key-0 bug. -/
def splitLoop (pageNo rightPageNo key child : Nat) (payload : Option (List Nat)) :
    Nat → Mem × Nat × Nat × Nat → Mem × Nat × Nat × Nat
  | 0, st => st
  | i + 1, (m, l, r, k) =>
    let ikey := getKey m pageNo (i : Int)
    let ichild := getChild m pageNo (i : Int)
    let ipayload := getKeyPayloadD m pageNo ikey
    let icellptr := getCellPtr m pageNo (i : Int)
    let st1 : Mem × Nat × Nat × Nat :=
      if ikey < k then
        if 0 < r then
          let r2 := r - 1
          let mm := setChild (setKey m rightPageNo (r2 : Int) key) rightPageNo (r2 : Int) child payload
          (mm, l, r2, 0)
        else
          let l2 := l - 1
          let mm := setChild (setKey m pageNo (l2 : Int) key) pageNo (l2 : Int) child payload
          (mm, l2, r, 0)
      else (m, l, r, k)
    let m1 := st1.1
    let l1 := st1.2.1
    let r1 := st1.2.2.1
    let k1 := st1.2.2.2
    if 0 < r1 then
      let r2 := r1 - 1
      let mm := setChild (setKey m1 rightPageNo (r2 : Int) ikey) rightPageNo (r2 : Int) ichild ipayload
      let mm := deleteCell (setKey mm pageNo (i : Int) 0) pageNo (i : Int)
      splitLoop pageNo rightPageNo key child payload i (mm, l1, r2, k1)
    else
      let l2 := l1 - 1
      let mm := setCellPtr (setKey m1 pageNo (l2 : Int) ikey) pageNo (l2 : Int) icellptr
      splitLoop pageNo rightPageNo key child payload i (mm, l2, r1, k1)

/-- `insertAndSplitKey`: allocate the right sibling, redistribute, place a
possibly-leftover key at slot 0, set the counts and link `next`. -/
def insertAndSplitKey (m : Mem) (order pageNo key child : Nat)
    (payload : Option (List Nat)) : Mem × Nat :=
  let mr := allocte m
  let rightPageNo := mr.2
  let leftNumberOfKey := ceil order
  let rightNumberOfKey := order - leftNumberOfKey + 1
  let st := splitLoop pageNo rightPageNo key child payload order
    (mr.1, leftNumberOfKey, rightNumberOfKey, key)
  let m1 := st.1
  let k := st.2.2.2
  let m2 := if k ≠ 0 then setChild (setKey m1 pageNo 0 key) pageNo 0 child payload else m1
  let m3 := setNumberOfKey m2 rightPageNo rightNumberOfKey
  let m4 := setNumberOfKey m3 pageNo leftNumberOfKey
  (setNext m4 pageNo rightPageNo, rightPageNo)

/-- `insertAndSplitRoot`: reset the root page in place so the root keeps
page number 1, install the two routing entries and reparent both
children; track the leftmost leaf. -/
def insertAndSplitRoot (b : BPlusTree) (root leftPage rightPage : Nat) : BPlusTree :=
  let m := b.data
  let leftMaxKey := getMaxKey m leftPage
  let rightMaxKey := getMaxKey m rightPage
  let m := setNodeType m root nodeTypeInternal
  let m := setUsablePtr m root offsetPayload
  let m := setKey m root 0 leftMaxKey
  let m := setCellPtr m root 0 0
  let m := setChild m root 0 leftPage none
  let m := setKey m root 1 rightMaxKey
  let m := setCellPtr m root 1 0
  let m := setChild m root 1 rightPage none
  let m := setNumberOfKey m root 2
  let m := setParent m leftPage root
  let m := setParent m rightPage root
  let newLeaf := if getNodeType m leftPage = nodeTypeLeaf then leftPage else b.leaf
  { b with data := m, leaf := newLeaf }

/-- The body of `insertAndsplit` up to (but excluding) its trailing
recursive `insertKey(parent, ...)` call: `.inl` is the finished root-split
case, `.inr` carries the state and the arguments of the pending parent
insertion (whose payload is nil in the source). -/
def insertAndsplitStep (b : BPlusTree) (pageNo key child : Nat)
    (payload : Option (List Nat)) : BPlusTree ⊕ BPlusTree × Nat × Nat × Nat :=
  let m := b.data
  let oldLeftMaxKey := getMaxKey m pageNo
  let mr := insertAndSplitKey m b.order pageNo key child payload
  let rightPageNo := mr.2
  let splitNodeType := getNodeType mr.1 pageNo
  let m1 := setNodeType mr.1 rightPageNo splitNodeType
  let parent := getParent m1 pageNo
  if parent = 0 then
    let ml := allocte m1
    let newLeftPage := ml.2
    let m2 := copyPage ml.1 pageNo newLeftPage
    let m3 := setNodeType m2 newLeftPage splitNodeType
    let b2 := insertAndSplitRoot { b with data := m3 } pageNo newLeftPage rightPageNo
    let m4 := setChildParent b2.data newLeftPage
    let m5 := setChildParent m4 rightPageNo
    .inl { b2 with data := m5 }
  else
    let newLeftMaxKey := getMaxKey m1 pageNo
    let rightMaxKey := getMaxKey m1 rightPageNo
    let m2 := setParent m1 rightPageNo parent
    let m3 := setChildParent m2 rightPageNo
    let m4 := updateKey m3 parent oldLeftMaxKey newLeftMaxKey
    .inr ({ b with data := m4 }, parent, rightMaxKey, rightPageNo)

/-- `insertKey`: dispatch on whether the node is full; the fuel bounds the
parent recursion of `insertAndsplit` (tree depth is at most 32, so fuel 32
never runs out on a real image). -/
def insertKeyGo : Nat → BPlusTree → Nat → Nat → Nat → Option (List Nat) → BPlusTree
  | 0, b, _, _, _, _ => b
  | fuel + 1, b, pageNo, key, child, payload =>
    if getNumberOfKey b.data pageNo ≠ b.order then
      { b with data := insertAndNotSplit b.data pageNo key child payload }
    else
      match insertAndsplitStep b pageNo key child payload with
      | .inl b2 => b2
      | .inr (b2, parent, rightMaxKey, rightPageNo) =>
        insertKeyGo fuel b2 parent rightMaxKey rightPageNo none

/-- `insertAndsplit`: the step above followed by the recursive promotion
into the parent. -/
def insertAndsplitGo (fuel : Nat) (b : BPlusTree) (pageNo key child : Nat)
    (payload : Option (List Nat)) : BPlusTree :=
  match insertAndsplitStep b pageNo key child payload with
  | .inl b2 => b2
  | .inr (b2, parent, rightMaxKey, rightPageNo) =>
    insertKeyGo fuel b2 parent rightMaxKey rightPageNo none

def BPlusTree.insertKey (b : BPlusTree) (pageNo key child : Nat)
    (payload : Option (List Nat)) : BPlusTree :=
  insertKeyGo 32 b pageNo key child payload

/-- `Insert`: search to the target leaf, then `insertKey` with child 0. -/
def BPlusTree.Insert (b : BPlusTree) (key : Nat) (payload : List Nat) : BPlusTree :=
  let pageNo := b.search key
  b.insertKey pageNo key 0 (some payload)

/-- `Get`: search to the leaf and read the payload (`.error ()` is the
nil-slice fault of `getKeyPayload` on an absent key). -/
def BPlusTree.Get (b : BPlusTree) (key : Nat) : Except Unit (Option (List Nat)) :=
  getKeyPayload b.data (b.search key) key

/-- The page-initialisation loop of `CreateTree`. -/
def createTreeLoop : Nat → Nat → Mem → Mem
  | _, 0, m => m
  | i, c + 1, m =>
    let m2 := setUsablePtr (setUsed (setPageNo m i i) i nodeUnused) i offsetPayload
    createTreeLoop (i + 1) c m2

/-- `CreateTree`: zero image, headers for all 32 pages, page 1 becomes the
(used) leaf root. -/
def CreateTree (order : Nat) : BPlusTree :=
  let m0 : Mem := 0
  let m1 := createTreeLoop 0 32 m0
  let m2 := setUsed (setNodeType m1 rootPageNo nodeTypeLeaf) rootPageNo nodeUsed
  { data := m2, leaf := rootPageNo, order := order }

/-! ### Helper lemmas about the MVCC embedding -/

/-- The read-view collection loop is the filter of the pool by the
`uncommit` status, in pool order. -/
theorem uncommittedOf_eq_filter (l : List Trx) :
    uncommittedOf l = l.filter (fun t => t.status == uncommit) := by
  induction l with
  | nil => rfl
  | cons t ts ih =>
    by_cases h : t.status == uncommit
    · simp [uncommittedOf, h, ih]
    · simp [uncommittedOf, h, ih]

/-- `inView`'s scan decides membership of the id among the view's copied
transactions. -/
theorem hasTrxID_eq_true_iff (l : List Trx) (tid : Int) :
    hasTrxID l tid = true ↔ tid ∈ l.map Trx.trxID := by
  induction l with
  | nil => simp [hasTrxID]
  | cons t ts ih =>
    simp only [hasTrxID, List.map_cons, List.mem_cons]
    by_cases h : t.trxID = tid
    · simp [h]
    · have hb : (t.trxID == tid) = false := beq_eq_false_iff_ne.mpr h
      rw [hb, if_neg (by simp), ih]
      constructor
      · exact Or.inr
      · rintro (rfl | h3)
        · exact absurd rfl h
        · exact h3

/-- A failing allocator scan means no pool entry satisfies the predicate. -/
theorem scanIdx_eq_none_iff {α : Type} (p : α → Bool) (l : List α) (i : Nat) :
    scanIdx p l i = none ↔ ∀ x ∈ l, p x = false := by
  induction l generalizing i with
  | nil => simp [scanIdx]
  | cons x xs ih =>
    by_cases h : p x = true
    · simp [scanIdx, h]
    · rw [scanIdx, if_neg (by simp [h]), ih]
      constructor
      · intro h2 y hy
        rcases List.mem_cons.mp hy with rfl | hy2
        · exact Bool.eq_false_iff.mpr h
        · exact h2 y hy2
      · intro h2 y hy
        exact h2 y (List.mem_cons_of_mem x hy)

/-- A successful allocator scan exhibits a pool entry satisfying the
predicate. -/
theorem scanIdx_eq_some_mem {α : Type} (p : α → Bool) (l : List α) (i k : Nat)
    (h : scanIdx p l i = some k) : ∃ x ∈ l, p x = true := by
  induction l generalizing i with
  | nil => simp [scanIdx] at h
  | cons x xs ih =>
    by_cases hx : p x
    · exact ⟨x, List.mem_cons_self x xs, hx⟩
    · simp only [scanIdx, hx, if_false] at h
      obtain ⟨y, hy, hp⟩ := ih (i + 1) h
      exact ⟨y, List.mem_cons_of_mem x hy, hp⟩

/-- In a pairwise `≤` list, the head is a lower bound. -/
theorem pairwise_head_le (x : Int) (l : List Int)
    (hp : List.Pairwise (· ≤ ·) (x :: l)) : ∀ y ∈ x :: l, x ≤ y := by
  intro y hy
  rcases List.mem_cons.mp hy with rfl | hy
  · exact le_refl y
  · exact (List.pairwise_cons.mp hp).1 y hy

/-- In a pairwise `≤` list, the last element is an upper bound. -/
theorem pairwise_le_getLastD (l : List Int) :
    List.Pairwise (· ≤ ·) l → ∀ x, l.getLast? = some x → ∀ y ∈ l, y ≤ x := by
  induction l with
  | nil => intro _ x _ y hy; cases hy
  | cons a as ih =>
    intro hp x hlast y hy
    cases as with
    | nil =>
      simp at hy hlast
      omega
    | cons b bs =>
      have hlast2 : (b :: bs).getLast? = some x := by
        rwa [List.getLast?_cons_cons] at hlast
      rcases List.mem_cons.mp hy with rfl | hy2
      · exact (List.pairwise_cons.mp hp).1 x (List.mem_of_mem_getLast? hlast2)
      · exact ih (List.pairwise_cons.mp hp).2 x hlast2 y hy2

/-! ### C1: the visibility predicate -/

/-- The raw if-chain of `check`, as a proposition, for a transaction whose
view is present. -/
theorem check_unfold (myid st : Int) (v : readView) (tid : Int) :
    (Trx.mk myid st (some v)).check tid = true ↔
      (myid = tid ∨ (myid ≠ tid ∧ tid < v.lowLimitID) ∨
        (myid ≠ tid ∧ ¬tid < v.lowLimitID ∧ ¬v.upLimitID < tid ∧
          hasTrxID v.trxIDs tid = false)) := by
  show (if myid == tid then true
    else if tid < v.lowLimitID then true
    else if tid > v.upLimitID then false
    else if hasTrxID v.trxIDs tid then false
    else true) = true ↔ _
  by_cases h1 : myid = tid
  · rw [if_pos (by simp [h1])]
    simp [h1]
  · rw [if_neg (by simp [h1])]
    by_cases h2 : tid < v.lowLimitID
    · rw [if_pos h2]
      simp [h1, h2]
    · rw [if_neg h2]
      by_cases h3 : v.upLimitID < tid
      · rw [if_pos h3]
        simp [h1, h2, h3]
      · rw [if_neg h3]
        by_cases h4 : hasTrxID v.trxIDs tid = true
        · rw [if_pos h4]
          simp [h1, h2, h3, h4]
        · rw [if_neg h4]
          simp [h1, h2, h3]
          exact Bool.eq_false_iff.mpr h4

/-- The content of claim C1 for a view with explicit components, under
hypotheses tying the components together the way `createReadView` does. -/
theorem c1_aux (ids : List Trx) (low up myid st w : Int) (hw : 1 ≤ w)
    (hnil : ids = [] → low = 0 ∧ up = 0)
    (hlowhead : ∀ t0 rest, ids = t0 :: rest → low = t0.trxID)
    (huplast : ∀ t, ids.getLast? = some t → up = t.trxID) :
    ((Trx.mk myid st (some (readView.mk low up ids))).check w = true ↔
      (w = myid ∨ w < low ∨ (low < w ∧ w ≤ up ∧ w ∉ ids.map Trx.trxID)))
    ∧ (List.Pairwise (· ≤ ·) (ids.map Trx.trxID) → up < w → w ≠ myid →
        (Trx.mk myid st (some (readView.mk low up ids))).check w = false)
    ∧ (List.Pairwise (· ≤ ·) (ids.map Trx.trxID) → w ∈ ids.map Trx.trxID → w ≠ myid →
        (Trx.mk myid st (some (readView.mk low up ids))).check w = false) := by
  have hcu := check_unfold myid st (readView.mk low up ids) w
  simp only [readView.lowLimitID, readView.upLimitID, readView.trxIDs] at hcu
  have hmap := hasTrxID_eq_true_iff ids w
  refine ⟨?_, ?_, ?_⟩
  · rw [hcu]
    constructor
    · rintro (h | ⟨hne, hlt⟩ | ⟨hne, hnlt, hnup, hfalse⟩)
      · exact Or.inl h.symm
      · exact Or.inr (Or.inl hlt)
      · have hnotmem : w ∉ ids.map Trx.trxID := by
          intro hm
          rw [hmap.mpr hm] at hfalse
          cases hfalse
        cases hids : ids with
        | nil =>
          exfalso
          rcases hnil hids with ⟨hl, hu⟩
          subst hids
          omega
        | cons t0 rest =>
          rw [← hids]
          have hlow : low = t0.trxID := hlowhead t0 rest hids
          have hlowmem : low ∈ ids.map Trx.trxID := by
            rw [hids, hlow]
            exact List.mem_cons_self _ _
          have hne2 : low ≠ w := fun he => hnotmem (he ▸ hlowmem)
          exact Or.inr (Or.inr ⟨lt_of_le_of_ne (not_lt.mp hnlt) hne2,
            not_lt.mp hnup, hnotmem⟩)
    · rintro (h | hlt | ⟨hgt, hle, hnotmem⟩)
      · exact Or.inl h.symm
      · by_cases hown : myid = w
        · exact Or.inl hown
        · exact Or.inr (Or.inl ⟨hown, hlt⟩)
      · by_cases hown : myid = w
        · exact Or.inl hown
        · refine Or.inr (Or.inr ⟨hown, not_lt.mpr (le_of_lt hgt), not_lt.mpr hle, ?_⟩)
          exact Bool.eq_false_iff.mpr (fun h => hnotmem (hmap.mp h))
  · intro hp hup hne
    apply Bool.eq_false_iff.mpr
    intro hchk
    rcases hcu.mp hchk with h | ⟨_, hlt⟩ | ⟨_, _, hnup, _⟩
    · exact hne h.symm
    · cases hids : ids with
      | nil =>
        rcases hnil hids with ⟨hl, _⟩
        subst hids
        omega
      | cons t0 rest =>
        have hlow : low = t0.trxID := hlowhead t0 rest hids
        have hne3 : ids ≠ [] := by rw [hids]; simp
        obtain ⟨tl, htl⟩ : ∃ tl, ids.getLast? = some tl := by
          rw [List.getLast?_eq_getLast ids hne3]
          exact ⟨_, rfl⟩
        have hup2 : up = tl.trxID := huplast tl htl
        have hmem0 : t0.trxID ∈ ids.map Trx.trxID := by
          rw [hids]; exact List.mem_cons_self _ _
        have hlast : (ids.map Trx.trxID).getLast? = some tl.trxID := by
          rw [List.getLast?_map, htl]
          rfl
        have hle2 : t0.trxID ≤ tl.trxID :=
          pairwise_le_getLastD _ hp _ hlast _ hmem0
        omega
    · exact hnup hup
  · intro hp hmem hne
    apply Bool.eq_false_iff.mpr
    intro hchk
    rcases hcu.mp hchk with h | ⟨_, hlt⟩ | ⟨_, _, _, hfalse⟩
    · exact hne h.symm
    · cases hids : ids with
      | nil => rw [hids] at hmem; simp at hmem
      | cons t0 rest =>
        have hlow : low = t0.trxID := hlowhead t0 rest hids
        have hmap2 : ids.map Trx.trxID = t0.trxID :: rest.map Trx.trxID := by
          rw [hids]; rfl
        have hle2 : t0.trxID ≤ w := by
          apply pairwise_head_le t0.trxID (rest.map Trx.trxID)
          · rw [← hmap2]; exact hp
          · rw [← hmap2]; exact hmem
        omega
    · rw [hmap.mpr hmem] at hfalse
      cases hfalse

/-- C1: for a transaction holding a `createReadView` snapshot, the
visibility check returns visible iff the writer is the transaction itself,
or predates `low_limit_id`, or lies in `(low, up]` outside the active
list; moreover (for the pool-ordered views the engine builds, whose active
ids are ascending) any writer above `up_limit_id`, and any active writer
other than the transaction itself, is invisible.  Writer ids are positive
(`Begin` allocates ids from 1 up). -/
theorem c1_check_matches_spec (ctx : TrxContext) (myid st w : Int) (hw : 1 ≤ w) :
    ((Trx.mk myid st (some ctx.createReadView)).check w = true ↔
      (w = myid ∨ w < ctx.createReadView.lowLimitID ∨
        (ctx.createReadView.lowLimitID < w ∧ w ≤ ctx.createReadView.upLimitID ∧
          w ∉ ctx.createReadView.trxIDs.map Trx.trxID)))
    ∧ (List.Pairwise (· ≤ ·) (ctx.createReadView.trxIDs.map Trx.trxID) →
        ctx.createReadView.upLimitID < w → w ≠ myid →
        (Trx.mk myid st (some ctx.createReadView)).check w = false)
    ∧ (List.Pairwise (· ≤ ·) (ctx.createReadView.trxIDs.map Trx.trxID) →
        w ∈ ctx.createReadView.trxIDs.map Trx.trxID → w ≠ myid →
        (Trx.mk myid st (some ctx.createReadView)).check w = false) := by
  have hshape : ctx.createReadView = readView.mk
      (match uncommittedOf ctx.trxIDs with | [] => 0 | t :: _ => t.trxID)
      (match (uncommittedOf ctx.trxIDs).getLast? with | none => 0 | some t => t.trxID)
      (uncommittedOf ctx.trxIDs) := rfl
  rw [hshape]
  apply c1_aux _ _ _ _ _ _ hw
  · intro hids
    rw [hids]
    simp
  · intro t0 rest hids
    rw [hids]
  · intro t htl
    rw [htl]

/-- C1 witness: a pool with two uncommitted transactions (ids 1 and 2);
the second transaction checks writer id 2 (its own). -/
def twoTrxCtx : TrxContext :=
  { trxIDs := [Trx.mk 1 uncommit none, Trx.mk 2 uncommit none]
    dataPool := [], undo := [], trxCounter := 2, rowCounter := 0 }

/-- Witness for C1 at a concrete pool: the hypotheses hold and the
conclusion follows by the theorem. -/
theorem c1_check_matches_spec_witness :
    (1 : Int) ≤ 2 ∧
    (((Trx.mk 2 uncommit (some twoTrxCtx.createReadView)).check 2 = true ↔
      ((2 : Int) = 2 ∨ (2 : Int) < twoTrxCtx.createReadView.lowLimitID ∨
        (twoTrxCtx.createReadView.lowLimitID < 2 ∧ (2 : Int) ≤ twoTrxCtx.createReadView.upLimitID ∧
          (2 : Int) ∉ twoTrxCtx.createReadView.trxIDs.map Trx.trxID)))
    ∧ (List.Pairwise (· ≤ ·) (twoTrxCtx.createReadView.trxIDs.map Trx.trxID) →
        twoTrxCtx.createReadView.upLimitID < 2 → (2 : Int) ≠ 2 →
        (Trx.mk 2 uncommit (some twoTrxCtx.createReadView)).check 2 = false)
    ∧ (List.Pairwise (· ≤ ·) (twoTrxCtx.createReadView.trxIDs.map Trx.trxID) →
        (2 : Int) ∈ twoTrxCtx.createReadView.trxIDs.map Trx.trxID → (2 : Int) ≠ 2 →
        (Trx.mk 2 uncommit (some twoTrxCtx.createReadView)).check 2 = false)) :=
  ⟨by norm_num, c1_check_matches_spec twoTrxCtx 2 uncommit 2 (by norm_num)⟩

/-! ### C4: read-view construction and immutability -/

/-- A pool update that preserves a slot's view field preserves every
slot's view. -/
theorem view_preserved_set (l : List Trx) (j k : Nat) (g : Trx → Trx)
    (hg : ∀ t, (g t).view = t.view) :
    ((l.set j (g (l.getD j default))).getD k default).view =
      (l.getD k default).view := by
  rw [List.getD_eq_getElem?_getD, List.getD_eq_getElem?_getD, List.getElem?_set]
  by_cases hjk : j = k
  · subst hjk
    by_cases hj : j < l.length
    · simp [hj, hg, List.getD_eq_getElem?_getD]
    · simp [hj, List.getElem?_eq_none (le_of_not_lt hj)]
  · simp [hjk]

/-- C4: `createReadView` collects exactly the uncommitted pool entries in
encounter order; `low_limit_id` and `up_limit_id` are the first and last
collected ids (0 when none); `Begin` stores the view captured from the
pool in which the caller was just marked, and no other operation (Insert,
Update, Commit, Rollback; Select does not touch the context at all)
changes any transaction's view. -/
theorem c4_read_view_construction (ctx : TrxContext) (i j k : Nat)
    (hi : i < ctx.trxIDs.length) (d : String) (rid : Int) :
    (ctx.createReadView.trxIDs = ctx.trxIDs.filter (fun t => t.status == uncommit))
    ∧ (ctx.createReadView.lowLimitID =
        (((ctx.trxIDs.filter (fun t => t.status == uncommit)).head?).map Trx.trxID).getD 0)
    ∧ (ctx.createReadView.upLimitID =
        (((ctx.trxIDs.filter (fun t => t.status == uncommit)).getLast?).map Trx.trxID).getD 0)
    ∧ (((Trx.Begin ctx i).trxIDs.getD i default).view =
        some ((beginMark ctx i).createReadView))
    ∧ (∀ c2, Trx.Insert ctx j d = .ok c2 → c2.trxIDs = ctx.trxIDs)
    ∧ (∀ c2, Trx.Update ctx j rid d = .ok c2 → c2.trxIDs = ctx.trxIDs)
    ∧ (((Trx.Commit ctx j).trxIDs.getD k default).view = (ctx.trxIDs.getD k default).view)
    ∧ (((Trx.Rollback ctx j).trxIDs.getD k default).view = (ctx.trxIDs.getD k default).view) := by
  have hids := uncommittedOf_eq_filter ctx.trxIDs
  refine ⟨?_, ?_, ?_, ?_, ?_, ?_, ?_, ?_⟩
  · show uncommittedOf ctx.trxIDs = _
    exact hids
  · show (match uncommittedOf ctx.trxIDs with | [] => 0 | t :: _ => t.trxID) = _
    rw [hids]
    cases ctx.trxIDs.filter (fun t => t.status == uncommit) with
    | nil => rfl
    | cons t rest => rfl
  · show (match (uncommittedOf ctx.trxIDs).getLast? with
      | none => 0 | some t => t.trxID) = _
    rw [hids]
    cases (ctx.trxIDs.filter (fun t => t.status == uncommit)).getLast? with
    | none => rfl
    | some t => rfl
  · show (((beginMark ctx i).trxIDs.set i _).getD i default).view = _
    have hlen : i < (beginMark ctx i).trxIDs.length := by
      show i < (ctx.trxIDs.set i _).length
      rw [List.length_set]
      exact hi
    rw [List.getD_eq_getElem?_getD, List.getElem?_set_self hlen, Option.getD_some]
    rfl
  · intro c2 h
    unfold Trx.Insert at h
    cases halloc : ctx.allocteRecord with
    | none => rw [halloc] at h; cases h
    | some ri =>
      rw [halloc] at h
      cases h
      rfl
  · intro c2 h
    unfold Trx.Update at h
    cases hfind : ctx.findRecord rid with
    | none => rw [hfind] at h; cases h
    | some ri =>
      cases hundo : ctx.allocteUndo with
      | none => rw [hfind, hundo] at h; cases h
      | some ui =>
        rw [hfind, hundo] at h
        cases h
        rfl
  · exact view_preserved_set ctx.trxIDs j k
      (fun t => Trx.mk t.trxID commit t.view) (fun t => rfl)
  · exact view_preserved_set ctx.trxIDs j k
      (fun t => Trx.mk t.trxID rollback t.view) (fun t => rfl)

/-- Witness for C4 at a concrete two-transaction pool. -/
theorem c4_read_view_construction_witness :
    0 < twoTrxCtx.trxIDs.length ∧
    ((twoTrxCtx.createReadView.trxIDs =
        twoTrxCtx.trxIDs.filter (fun t => t.status == uncommit))
    ∧ (twoTrxCtx.createReadView.lowLimitID =
        (((twoTrxCtx.trxIDs.filter (fun t => t.status == uncommit)).head?).map Trx.trxID).getD 0)
    ∧ (twoTrxCtx.createReadView.upLimitID =
        (((twoTrxCtx.trxIDs.filter (fun t => t.status == uncommit)).getLast?).map Trx.trxID).getD 0)
    ∧ (((Trx.Begin twoTrxCtx 0).trxIDs.getD 0 default).view =
        some ((beginMark twoTrxCtx 0).createReadView))
    ∧ (∀ c2, Trx.Insert twoTrxCtx 0 "x" = .ok c2 → c2.trxIDs = twoTrxCtx.trxIDs)
    ∧ (∀ c2, Trx.Update twoTrxCtx 0 1 "x" = .ok c2 → c2.trxIDs = twoTrxCtx.trxIDs)
    ∧ (((Trx.Commit twoTrxCtx 0).trxIDs.getD 1 default).view =
        (twoTrxCtx.trxIDs.getD 1 default).view)
    ∧ (((Trx.Rollback twoTrxCtx 0).trxIDs.getD 1 default).view =
        (twoTrxCtx.trxIDs.getD 1 default).view)) :=
  ⟨by decide, c4_read_view_construction twoTrxCtx 0 0 1 (by decide) "x" 1⟩

/-! ### C10: Begin marks the caller before capturing the view -/

/-- C10: `Begin` sets the caller's status to uncommitted before calling
`createReadView`, so the freshly begun transaction is itself in its view's
active list, `up_limit_id` equals (hence is at least) its own id, and its
own id passes the visibility check via the own-id test.  The hypothesis
says the slots after `i` are not uncommitted, which holds in every
reachable pool because slots are allocated in order (non-free slots form a
prefix). -/
theorem c10_begin_marks_before_view (ctx : TrxContext) (i : Nat)
    (hi : i < ctx.trxIDs.length)
    (hafter : ∀ j, i < j → j < ctx.trxIDs.length →
      (ctx.trxIDs.getD j default).status ≠ uncommit) :
    ∃ v, ((Trx.Begin ctx i).trxIDs.getD i default).view = some v ∧
      ((Trx.Begin ctx i).trxIDs.getD i default).trxID ∈ v.trxIDs.map Trx.trxID ∧
      v.upLimitID = ((Trx.Begin ctx i).trxIDs.getD i default).trxID ∧
      ((Trx.Begin ctx i).trxIDs.getD i default).trxID ≤ v.upLimitID ∧
      ((Trx.Begin ctx i).trxIDs.getD i default).check
        ((Trx.Begin ctx i).trxIDs.getD i default).trxID = true := by
  have hnewT : ∃ newT, (beginMark ctx i).trxIDs = ctx.trxIDs.set i newT ∧
      newT = Trx.mk (ctx.trxCounter + 1) uncommit ((ctx.trxIDs.getD i default)).view :=
    ⟨_, rfl, rfl⟩
  obtain ⟨newT, hmark, hnewTdef⟩ := hnewT
  have hgetmark : (beginMark ctx i).trxIDs.getD i default = newT := by
    rw [hmark, List.getD_eq_getElem?_getD, List.getElem?_set_self hi, Option.getD_some]
  have hlen : i < (beginMark ctx i).trxIDs.length := by
    rw [hmark, List.length_set]
    exact hi
  have hres : (Trx.Begin ctx i).trxIDs.getD i default =
      Trx.mk newT.trxID newT.status (some ((beginMark ctx i).createReadView)) := by
    show (((beginMark ctx i).trxIDs).set i
        (Trx.mk ((beginMark ctx i).trxIDs.getD i default).trxID
          ((beginMark ctx i).trxIDs.getD i default).status
          (some ((beginMark ctx i).createReadView)))).getD i default = _
    rw [List.getD_eq_getElem?_getD,
      List.getElem?_set_self (by rw [hmark] at hlen ⊢; exact hlen), Option.getD_some,
      hgetmark]
  have hset : ctx.trxIDs.set i newT =
      ctx.trxIDs.take i ++ newT :: ctx.trxIDs.drop (i + 1) :=
    List.set_eq_take_cons_drop newT hi
  have hdropfilter :
      (ctx.trxIDs.drop (i + 1)).filter (fun t => t.status == uncommit) = [] := by
    rw [List.filter_eq_nil_iff]
    intro x hx
    obtain ⟨n, hn, hxn⟩ := List.mem_iff_getElem.mp hx
    have hlen2 : i + 1 + n < ctx.trxIDs.length := by
      rw [List.length_drop] at hn
      omega
    have hx2 : x = ctx.trxIDs[i + 1 + n] := by
      rw [← hxn, List.getElem_drop]
    have hst := hafter (i + 1 + n) (by omega) hlen2
    rw [List.getD_eq_getElem?_getD, List.getElem?_eq_getElem hlen2,
      Option.getD_some] at hst
    rw [hx2]
    simpa using hst
  have hnewst : (newT.status == uncommit) = true := by
    rw [hnewTdef]
    rfl
  have hids : uncommittedOf (ctx.trxIDs.set i newT) =
      (ctx.trxIDs.take i).filter (fun t => t.status == uncommit) ++ [newT] := by
    rw [uncommittedOf_eq_filter, hset, List.filter_append, List.filter_cons,
      hnewst, hdropfilter]
    simp
  have hvids : ((beginMark ctx i).createReadView).trxIDs =
      uncommittedOf (ctx.trxIDs.set i newT) := by
    rw [← hmark]
    rfl
  have hvup : ((beginMark ctx i).createReadView).upLimitID = newT.trxID := by
    show (match (uncommittedOf ((beginMark ctx i).trxIDs)).getLast? with
      | none => 0 | some t => t.trxID) = _
    rw [hmark, hids, List.getLast?_concat]
  refine ⟨(beginMark ctx i).createReadView, ?_, ?_, ?_, ?_, ?_⟩
  · rw [hres]
    rfl
  · rw [hres]
    show newT.trxID ∈ _
    rw [hvids, hids, List.map_append]
    exact List.mem_append_right _ (by simp)
  · rw [hres, hvup]
    rfl
  · rw [hres, hvup]
    exact le_refl _
  · rw [hres]
    simp [Trx.check, Trx.trxID]

/-- Witness for C10: the second slot of a one-begun-transaction pool. -/
theorem c10_begin_marks_before_view_witness :
    1 < twoTrxCtx.trxIDs.length ∧
    (∀ j, 1 < j → j < twoTrxCtx.trxIDs.length →
      (twoTrxCtx.trxIDs.getD j default).status ≠ uncommit) ∧
    (∃ v, ((Trx.Begin twoTrxCtx 1).trxIDs.getD 1 default).view = some v ∧
      ((Trx.Begin twoTrxCtx 1).trxIDs.getD 1 default).trxID ∈ v.trxIDs.map Trx.trxID ∧
      v.upLimitID = ((Trx.Begin twoTrxCtx 1).trxIDs.getD 1 default).trxID ∧
      ((Trx.Begin twoTrxCtx 1).trxIDs.getD 1 default).trxID ≤ v.upLimitID ∧
      ((Trx.Begin twoTrxCtx 1).trxIDs.getD 1 default).check
        ((Trx.Begin twoTrxCtx 1).trxIDs.getD 1 default).trxID = true) :=
  ⟨by decide,
    by
      intro j h1 h2
      rw [show twoTrxCtx.trxIDs.length = 2 from rfl] at h2
      omega,
    c10_begin_marks_before_view twoTrxCtx 1 (by decide)
      (by
        intro j h1 h2
        rw [show twoTrxCtx.trxIDs.length = 2 from rfl] at h2
        omega)⟩

/-! ### C6: the undo chain degenerates into a cycle -/

set_option maxRecDepth 40000

/-- Transaction 1 begun on a fresh context. -/
def c6s1 : TrxContext := Trx.Begin CreateTrxContext 0

/-- Row 1 inserted with data "a". -/
def c6s2 : TrxContext := (Trx.Insert c6s1 0 "a").toOption.getD c6s1

/-- Row 1 updated to "b": the first undo entry records version "a". -/
def c6s3 : TrxContext := (Trx.Update c6s2 0 1 "b").toOption.getD c6s2

/-- Row 1 updated to "c": `allocteUndo` hands out `undo[0]` again (its
`rowID` was never set), so the entry is overwritten and made to point at
itself. -/
def c6s4 : TrxContext := (Trx.Update c6s3 0 1 "c").toOption.getD c6s3

/-- C6: `allocteUndo` never marks an undo entry as used (`rowID` stays 0),
so the second `Update` of the same row reuses `undo[0]`: the record's
chain head points at itself (`undo[0].rollPtr = some 0`, a cycle, not an
acyclic chain) and the oldest version "a" is overwritten by "b". -/
theorem c6_undo_chain_cycle :
    (Trx.Insert c6s1 0 "a").isOk = true
    ∧ (Trx.Update c6s2 0 1 "b").isOk = true
    ∧ (Trx.Update c6s3 0 1 "c").isOk = true
    ∧ (c6s3.dataPool.getD 0 default).rollPtr = some 0
    ∧ (c6s3.undo.getD 0 default).data = "a"
    ∧ (c6s3.undo.getD 0 default).rollPtr = none
    ∧ (c6s4.dataPool.getD 0 default).rollPtr = some 0
    ∧ (c6s4.undo.getD 0 default).rollPtr = some 0
    ∧ (c6s4.undo.getD 0 default).data = "b" :=
  ⟨rfl, rfl, rfl, rfl, rfl, rfl, rfl, rfl, rfl⟩

/-! ### C8: pool exhaustion faults instead of reporting absence -/

/-- A context whose data pool is completely full. -/
def fullDataCtx : TrxContext :=
  { CreateTrxContext with dataPool := List.replicate 1024 { rowID := 1 } }

/-- A context whose undo pool is completely full and whose data pool holds
one live row (row id 1). -/
def fullUndoCtx : TrxContext :=
  { CreateTrxContext with
    dataPool := CreateTrxContext.dataPool.set 0 { rowID := 1, trxID := 1, data := "a" }
    undo := List.replicate 1024 { rowID := 1 } }

/-- A context whose transaction pool has no unused slot. -/
def fullTrxCtx : TrxContext :=
  { CreateTrxContext with trxIDs := List.replicate 1024 (Trx.mk 1 commit none) }

/-- C8 counterexample: with the data pool exhausted, `Insert` does not
"leave state unchanged and report absence" — it dereferences the nil
record pointer, a runtime fault (`.error ()`). -/
theorem c8_insert_faults_on_full_pool :
    Trx.Insert fullDataCtx 0 "x" = Except.error () := rfl

/-- C8 amended: `AllocteTrx` surfaces exhaustion as an absent (nil)
return; `Insert` and `Update`, whose internal allocators return absent on
exhaustion, immediately dereference that absent pointer and fault instead
of reporting absence to their caller. -/
theorem c8_pool_exhaustion_behaviour (ctx : TrxContext) (i : Nat) (d : String) (rid : Int) :
    ((∀ t ∈ ctx.trxIDs, t.status ≠ unused) → ctx.AllocteTrx = none)
    ∧ (ctx.allocteRecord = none → Trx.Insert ctx i d = .error ())
    ∧ (ctx.allocteUndo = none → Trx.Update ctx i rid d = .error ())
    ∧ ((∀ r ∈ ctx.dataPool.take ctx.trxIDs.length, r.rowID ≠ 0) →
        ctx.allocteRecord = none) := by
  refine ⟨?_, ?_, ?_, ?_⟩
  · intro h
    apply (scanIdx_eq_none_iff _ _ _).mpr
    intro t ht
    exact beq_eq_false_iff_ne.mpr (h t ht)
  · intro h
    simp [Trx.Insert, h]
  · intro h
    cases hf : ctx.findRecord rid <;> simp [Trx.Update, hf, h]
  · intro h
    apply (scanIdx_eq_none_iff _ _ _).mpr
    intro r hr
    exact beq_eq_false_iff_ne.mpr (h r hr)

/-- Witness for C8: a full data pool makes `Insert` fault, a full undo
pool makes `Update` fault, and a pool without unused transaction slots
makes `AllocteTrx` return absent. -/
theorem c8_pool_exhaustion_behaviour_witness :
    Trx.Insert fullDataCtx 0 "x" = Except.error ()
    ∧ Trx.Update fullUndoCtx 0 1 "x" = Except.error ()
    ∧ fullTrxCtx.AllocteTrx = none
    ∧ fullDataCtx.allocteRecord = none :=
  ⟨(c8_pool_exhaustion_behaviour fullDataCtx 0 "x" 1).2.1 rfl,
   (c8_pool_exhaustion_behaviour fullUndoCtx 0 "x" 1).2.2.1 rfl,
   (c8_pool_exhaustion_behaviour fullTrxCtx 0 "x" 1).1
     (by
       intro t ht
       rw [List.eq_of_mem_replicate ht]
       decide),
   (c8_pool_exhaustion_behaviour fullDataCtx 0 "x" 1).2.2.2
     (by
       intro r hr
       rw [List.eq_of_mem_replicate (List.mem_of_mem_take hr)]
       decide)⟩

/-! ### C9: Update on an absent row id -/

/-- C9 counterexample: looking up row id 0 does not return absent — the
first free pool entry has `rowID == 0`, so `findRecord 0` finds it and
`Update(ctx, 0, ...)` completes without any fault. -/
theorem c9_rowid_zero_no_fault :
    CreateTrxContext.findRecord 0 = some 0
    ∧ (Trx.Update CreateTrxContext 0 0 "x").isOk = true := ⟨rfl, rfl⟩

/-- C9 amended: when no data-pool entry's `rowID` field equals the
argument (so in particular for a nonzero id never returned by Insert —
but not for row id 0, which matches a free entry whenever one exists),
`findRecord` returns absent and `Update` immediately dereferences the
absent record and faults; and a non-faulting `Update` implies some pool
entry's `rowID` field equals the argument. -/
theorem c9_update_absent_record (ctx : TrxContext) (i : Nat) (rid : Int) (d : String) :
    (ctx.findRecord rid = none → Trx.Update ctx i rid d = .error ())
    ∧ (ctx.findRecord rid = none ↔
        ∀ r ∈ ctx.dataPool.take ctx.trxIDs.length, r.rowID ≠ rid)
    ∧ (∀ c2, Trx.Update ctx i rid d = .ok c2 →
        ∃ r ∈ ctx.dataPool.take ctx.trxIDs.length, r.rowID = rid) := by
  refine ⟨?_, ?_, ?_⟩
  · intro h
    simp [Trx.Update, h]
  · show scanIdx _ _ 0 = none ↔ _
    rw [scanIdx_eq_none_iff]
    constructor
    · intro h r hr
      exact beq_eq_false_iff_ne.mp (h r hr)
    · intro h r hr
      exact beq_eq_false_iff_ne.mpr (h r hr)
  · intro c2 h
    cases hf : ctx.findRecord rid with
    | none =>
      rw [(by simp [Trx.Update, hf] : Trx.Update ctx i rid d = .error ())] at h
      cases h
    | some ri =>
      obtain ⟨r, hr, hp⟩ := scanIdx_eq_some_mem _ _ 0 ri hf
      exact ⟨r, hr, beq_iff_eq.mp hp⟩

/-- Witness for C9: row id 5 is absent from a fresh context, and Update
faults on it. -/
theorem c9_update_absent_record_witness :
    CreateTrxContext.findRecord 5 = none
    ∧ Trx.Update CreateTrxContext 0 5 "x" = Except.error () :=
  ⟨rfl, (c9_update_absent_record CreateTrxContext 0 5 "x").1 rfl⟩

/-! ### C2 and C7: the split drops an inserted key 0 -/

/-- Order-3 tree after inserting keys 1, 2, 3 (payloads one byte each):
the root leaf is full. -/
def tree123 : BPlusTree :=
  (((CreateTree 3).Insert 1 [10]).Insert 2 [20]).Insert 3 [30]

/-- The same tree after also inserting key 0, which forces a split of the
full root leaf. -/
def tree1230 : BPlusTree := tree123.Insert 0 [40]

/-- C2: the round-trip fails.  `insertAndSplitKey` uses `k != 0` as the
"new key already placed" sentinel, so an inserted key 0 is silently
dropped during the split; the subsequent `Get(0)` walks to the left leaf,
finds no key 0 and faults on the nil cell (`cell[8:]`).  The other three
keys survive the split and round-trip correctly. -/
theorem c2_insert_key_zero_lost :
    tree1230.Get 0 = Except.error ()
    ∧ tree1230.Get 1 = Except.ok (some [10])
    ∧ tree1230.Get 2 = Except.ok (some [20])
    ∧ tree1230.Get 3 = Except.ok (some [30]) :=
  ⟨rfl, rfl, rfl, rfl⟩

/-- C7: the outcome of `insertAndSplitKey` itself on the full node
holding keys {1,2,3} (order 3) when key 0 is inserted. -/
def split0 : Mem × Nat := insertAndSplitKey tree123.data 3 1 0 0 (some [40])

/-- C7: the counts and the `next` link behave as claimed — the left page
keeps `ceil(3/2) = 2` keys, the right page `3 - 2 + 1 = 2` keys, and the
left page's `next` points at the freshly allocated right page 2 — but the
union of keys is NOT the original keys plus the inserted key: the left
page ends up with the duplicate keys [1, 1] and the inserted key 0 is
gone (and slot 0 is not in ascending order with a strict sense). -/
theorem c7_split_drops_inserted_key_zero :
    split0.2 = 2
    ∧ getNumberOfKey split0.1 1 = 2
    ∧ getNumberOfKey split0.1 2 = 2
    ∧ getKey split0.1 1 0 = 1
    ∧ getKey split0.1 1 1 = 1
    ∧ getKey split0.1 2 0 = 2
    ∧ getKey split0.1 2 1 = 3
    ∧ getNext split0.1 1 = 2 :=
  ⟨rfl, rfl, rfl, rfl, rfl, rfl, rfl, rfl⟩

/-! ### C3: Get of an absent key faults -/

/-- C3: on a leaf that does not contain the key, `getKeyCell` returns nil
and `getKeyPayload` slices it (`cell[8:]`), a runtime fault — Get does
not return absent.  When the key is present, Get returns exactly the
bytes after the 8-byte leaf-cell prefix. -/
theorem c3_get_absent_key_faults :
    (CreateTree 5).Get 1 = Except.error ()
    ∧ ((CreateTree 5).Insert 7 [1, 2, 3]).Get 7 = Except.ok (some [1, 2, 3])
    ∧ ((CreateTree 5).Insert 7 [1, 2, 3]).Get 8 = Except.error () :=
  ⟨rfl, rfl, rfl⟩

/-! ### C5: byte-level laws of the Nat-encoded memory -/

theorem Mem.read_lt (m : Mem) (a : Nat) : m.read a < 256 :=
  Nat.mod_lt _ (by norm_num)

theorem digit_sub_add (m E X Y F G : Nat) (h1 : G = E - X + Y) (h2 : X ≤ E)
    (h3 : E + F = m) : m - X + Y = G + F := by
  omega

theorem digit_mod_shift (v q : Nat) : (q - q % 256 + v % 256) % 256 = v % 256 := by
  omega

theorem digit_div_shift (v q : Nat) : (q - q % 256 + v % 256) / 256 = q / 256 := by
  omega

/-- A write replaces exactly the base-256 digit at its address. -/
theorem Mem.write_eq_digits (m : Mem) (a v : Nat) :
    Mem.write m a v =
      (m / 256 ^ a - m / 256 ^ a % 256 + v % 256) * 256 ^ a + m % 256 ^ a := by
  show m - m / 256 ^ a % 256 * 256 ^ a + v % 256 * 256 ^ a = _
  set D := (256 : Nat) ^ a with hD
  have e1 : (m / D - m / D % 256 + v % 256) * D =
      m / D * D - m / D % 256 * D + v % 256 * D := by
    rw [Nat.add_mul, Nat.sub_mul]
  have e3 : m / D % 256 * D ≤ m / D * D :=
    Nat.mul_le_mul_right _ (Nat.mod_le _ _)
  have e4 : m / D * D + m % D = m := by
    rw [Nat.mul_comm]
    exact Nat.div_add_mod m _
  exact digit_sub_add m (m / D * D) (m / D % 256 * D) (v % 256 * D) (m % D)
    ((m / D - m / D % 256 + v % 256) * D) e1 e3 e4

/-- Reading the written address returns the written byte. -/
theorem Mem.read_write_self (m : Mem) (a v : Nat) :
    (Mem.write m a v).read a = v % 256 := by
  rw [Mem.write_eq_digits]
  show ((m / 256 ^ a - m / 256 ^ a % 256 + v % 256) * 256 ^ a + m % 256 ^ a)
      / 256 ^ a % 256 = _
  set D := (256 : Nat) ^ a with hD
  have hD0 : 0 < D := pow_pos (by norm_num) a
  have hR : m % D < D := Nat.mod_lt _ hD0
  have h1 : (m / D - m / D % 256 + v % 256) * D + m % D
      = m % D + D * (m / D - m / D % 256 + v % 256) := by
    rw [Nat.add_comm ((m / D - m / D % 256 + v % 256) * D) (m % D),
      Nat.mul_comm (m / D - m / D % 256 + v % 256) D]
  rw [h1, Nat.add_mul_div_left _ _ hD0, Nat.div_eq_of_lt hR, Nat.zero_add]
  exact digit_mod_shift v (m / D)

/-- Reading any other address is unchanged by a write. -/
theorem Mem.read_write_ne (m : Mem) (a v b : Nat) (h : b ≠ a) :
    (Mem.write m a v).read b = m.read b := by
  rw [Mem.write_eq_digits]
  show ((m / 256 ^ a - m / 256 ^ a % 256 + v % 256) * 256 ^ a + m % 256 ^ a)
      / 256 ^ b % 256 = m / 256 ^ b % 256
  have hD0 : 0 < (256 : Nat) ^ a := pow_pos (by norm_num) a
  have hB0 : 0 < (256 : Nat) ^ b := pow_pos (by norm_num) b
  have hR : m % 256 ^ a < 256 ^ a := Nat.mod_lt _ hD0
  rcases Nat.lt_or_ge b a with hba | hba
  · -- reading strictly below the written digit
    have hsplit : (256 : Nat) ^ a = 256 ^ b * 256 ^ (a - b) := by
      rw [← pow_add]
      congr 1
      omega
    have hsplit3 : (256 : Nat) ^ (a - b) = 256 ^ (a - b - 1) * 256 := by
      rw [← pow_succ]
      congr 1
      omega
    have key : ∀ Q : Nat, (Q * 256 ^ a + m % 256 ^ a) / 256 ^ b % 256 =
        m % 256 ^ a / 256 ^ b % 256 := by
      intro Q
      have h1 : Q * 256 ^ a + m % 256 ^ a =
          m % 256 ^ a + 256 ^ b * (Q * 256 ^ (a - b)) := by
        rw [Nat.add_comm (Q * 256 ^ a) (m % 256 ^ a), hsplit]
        ring_nf
      rw [h1, Nat.add_mul_div_left _ _ hB0]
      have h2 : Q * 256 ^ (a - b) = Q * 256 ^ (a - b - 1) * 256 := by
        rw [Nat.mul_assoc, ← hsplit3]
      rw [h2, Nat.add_mul_mod_self_right]
    rw [key]
    have hm2 : m = m / 256 ^ a * 256 ^ a + m % 256 ^ a := by
      rw [Nat.mul_comm]
      exact (Nat.div_add_mod m _).symm
    conv_rhs => rw [hm2]
    exact (key _).symm
  · -- reading strictly above the written digit
    have hab : a < b := lt_of_le_of_ne hba (Ne.symm h)
    have hsplit2 : (256 : Nat) ^ b = 256 ^ a * 256 ^ (b - a) := by
      rw [← pow_add]
      congr 1
      omega
    have hsplit4 : (256 : Nat) ^ (b - a) = 256 * 256 ^ (b - a - 1) := by
      rw [← pow_succ']
      congr 1
      omega
    have hL : (m / 256 ^ a - m / 256 ^ a % 256 + v % 256) * 256 ^ a + m % 256 ^ a =
        m % 256 ^ a + 256 ^ a * (m / 256 ^ a - m / 256 ^ a % 256 + v % 256) := by
      rw [Nat.add_comm ((m / 256 ^ a - m / 256 ^ a % 256 + v % 256) * 256 ^ a)
        (m % 256 ^ a),
        Nat.mul_comm (m / 256 ^ a - m / 256 ^ a % 256 + v % 256) (256 ^ a)]
    rw [hL, hsplit2, ← Nat.div_div_eq_div_mul, Nat.add_mul_div_left _ _ hD0,
      Nat.div_eq_of_lt hR, Nat.zero_add, ← Nat.div_div_eq_div_mul]
    rw [hsplit4, ← Nat.div_div_eq_div_mul, ← Nat.div_div_eq_div_mul]
    rw [digit_div_shift v (m / 256 ^ a)]

/-- Read over write, conditional form. -/
theorem Mem.read_write (m : Mem) (a v b : Nat) :
    (Mem.write m a v).read b = if b = a then v % 256 else m.read b := by
  by_cases h : b = a
  · subst h
    rw [if_pos rfl]
    exact Mem.read_write_self m b v
  · rw [if_neg h]
    exact Mem.read_write_ne m a v b h

/-- A byte outside a 4-byte store is unchanged. -/
theorem read_setInt32_ne (m : Mem) (off v c : Nat) (h : c < off ∨ off + 4 ≤ c) :
    (setInt32 m off v).read c = m.read c := by
  simp only [setInt32]
  rw [Mem.read_write_ne _ _ _ _ (by omega), Mem.read_write_ne _ _ _ _ (by omega),
    Mem.read_write_ne _ _ _ _ (by omega), Mem.read_write_ne _ _ _ _ (by omega)]

/-- A byte outside an 8-byte store is unchanged. -/
theorem read_setInt64_ne (m : Mem) (off v c : Nat) (h : c < off ∨ off + 8 ≤ c) :
    (setInt64 m off v).read c = m.read c := by
  simp only [setInt64]
  rw [Mem.read_write_ne _ _ _ _ (by omega), Mem.read_write_ne _ _ _ _ (by omega),
    Mem.read_write_ne _ _ _ _ (by omega), Mem.read_write_ne _ _ _ _ (by omega),
    Mem.read_write_ne _ _ _ _ (by omega), Mem.read_write_ne _ _ _ _ (by omega),
    Mem.read_write_ne _ _ _ _ (by omega), Mem.read_write_ne _ _ _ _ (by omega)]

/-- `Uint32` recovers the value a `PutUint32` stored (mod 2^32). -/
theorem getInt32_setInt32_same (m : Mem) (off v : Nat) :
    getInt32 (setInt32 m off v) off = v % 4294967296 := by
  simp only [getInt32, setInt32, Mem.read_write]
  simp
  omega

/-- `Uint64` recovers the value a `PutUint64` stored (mod 2^64). -/
theorem getInt64_setInt64_same (m : Mem) (off v : Nat) :
    getInt64 (setInt64 m off v) off = v % 18446744073709551616 := by
  simp only [getInt64, setInt64, Mem.read_write]
  simp
  omega

/-- A 4-byte load outside a 4-byte store is unchanged. -/
theorem getInt32_setInt32_ne (m : Mem) (off v q : Nat)
    (h : q + 4 ≤ off ∨ off + 4 ≤ q) :
    getInt32 (setInt32 m off v) q = getInt32 m q := by
  simp only [getInt32]
  rw [read_setInt32_ne _ _ _ _ (by omega), read_setInt32_ne _ _ _ _ (by omega),
    read_setInt32_ne _ _ _ _ (by omega), read_setInt32_ne _ _ _ _ (by omega)]

/-- A 4-byte load outside an 8-byte store is unchanged. -/
theorem getInt32_setInt64_ne (m : Mem) (off v q : Nat)
    (h : q + 4 ≤ off ∨ off + 8 ≤ q) :
    getInt32 (setInt64 m off v) q = getInt32 m q := by
  simp only [getInt32]
  rw [read_setInt64_ne _ _ _ _ (by omega), read_setInt64_ne _ _ _ _ (by omega),
    read_setInt64_ne _ _ _ _ (by omega), read_setInt64_ne _ _ _ _ (by omega)]

/-- An 8-byte load outside a 4-byte store is unchanged. -/
theorem getInt64_setInt32_ne (m : Mem) (off v q : Nat)
    (h : q + 8 ≤ off ∨ off + 4 ≤ q) :
    getInt64 (setInt32 m off v) q = getInt64 m q := by
  simp only [getInt64]
  rw [read_setInt32_ne _ _ _ _ (by omega), read_setInt32_ne _ _ _ _ (by omega),
    read_setInt32_ne _ _ _ _ (by omega), read_setInt32_ne _ _ _ _ (by omega),
    read_setInt32_ne _ _ _ _ (by omega), read_setInt32_ne _ _ _ _ (by omega),
    read_setInt32_ne _ _ _ _ (by omega), read_setInt32_ne _ _ _ _ (by omega)]

/-- An 8-byte load outside an 8-byte store is unchanged. -/
theorem getInt64_setInt64_ne (m : Mem) (off v q : Nat)
    (h : q + 8 ≤ off ∨ off + 8 ≤ q) :
    getInt64 (setInt64 m off v) q = getInt64 m q := by
  simp only [getInt64]
  rw [read_setInt64_ne _ _ _ _ (by omega), read_setInt64_ne _ _ _ _ (by omega),
    read_setInt64_ne _ _ _ _ (by omega), read_setInt64_ne _ _ _ _ (by omega),
    read_setInt64_ne _ _ _ _ (by omega), read_setInt64_ne _ _ _ _ (by omega),
    read_setInt64_ne _ _ _ _ (by omega), read_setInt64_ne _ _ _ _ (by omega)]

/-- A 4-byte load outside a single-byte store is unchanged. -/
theorem getInt32_write_ne (m : Mem) (a v q : Nat) (h : a < q ∨ q + 4 ≤ a) :
    getInt32 (Mem.write m a v) q = getInt32 m q := by
  simp only [getInt32]
  rw [Mem.read_write_ne _ _ _ _ (by omega), Mem.read_write_ne _ _ _ _ (by omega),
    Mem.read_write_ne _ _ _ _ (by omega), Mem.read_write_ne _ _ _ _ (by omega)]

/-- An 8-byte load outside a single-byte store is unchanged. -/
theorem getInt64_write_ne (m : Mem) (a v q : Nat) (h : a < q ∨ q + 8 ≤ a) :
    getInt64 (Mem.write m a v) q = getInt64 m q := by
  simp only [getInt64]
  rw [Mem.read_write_ne _ _ _ _ (by omega), Mem.read_write_ne _ _ _ _ (by omega),
    Mem.read_write_ne _ _ _ _ (by omega), Mem.read_write_ne _ _ _ _ (by omega),
    Mem.read_write_ne _ _ _ _ (by omega), Mem.read_write_ne _ _ _ _ (by omega),
    Mem.read_write_ne _ _ _ _ (by omega), Mem.read_write_ne _ _ _ _ (by omega)]

/-- Any big-endian 8-byte load is below 2^64. -/
theorem getInt64_lt (m : Mem) (off : Nat) :
    getInt64 m off < 18446744073709551616 := by
  simp only [getInt64]
  have h0 := Mem.read_lt m off
  have h1 := Mem.read_lt m (off + 1)
  have h2 := Mem.read_lt m (off + 2)
  have h3 := Mem.read_lt m (off + 3)
  have h4 := Mem.read_lt m (off + 4)
  have h5 := Mem.read_lt m (off + 5)
  have h6 := Mem.read_lt m (off + 6)
  have h7 := Mem.read_lt m (off + 7)
  omega

/-- `insertAndSplitRoot` on the root page 1, written out as its exact
sequence of byte-image stores: mark the root internal, reset its usable
pointer to 504, install key slot 0 (left max key, cell at 500 holding the
left page number), key slot 1 (right max key, cell at 496 holding the
right page number), set the key count to 2, and stamp both children's
parent headers. -/
theorem insertAndSplitRoot_data (b : BPlusTree) (L R : Nat) :
    (insertAndSplitRoot b rootPageNo L R).data =
      setInt32 (setInt32 (setInt32 (copyBytes (u32bytes R) (setInt32 (setInt32
        (setInt32 (setInt64 (copyBytes (u32bytes L) (setInt32 (setInt32
        (setInt32 (setInt64 (setInt32 (Mem.write b.data 516 nodeTypeInternal)
        524 504) 548 (getMaxKey b.data L)) 556 0) 556 500) 524 500) 1012)
        560 (getMaxKey b.data R)) 568 0) 568 496) 524 496) 1008) 544 2)
        (L * 512 + 8) 1) (R * 512 + 8) 1 := by
  simp [insertAndSplitRoot, setNodeType, setUsablePtr, setKey, setCellPtr,
    setNumberOfKey, setParent, setPageInt32, setChild, insertOrUpdateCell,
    marshal, blockCopyToPage, getCellPtr, getUsablePtr, getPageInt32,
    cellPtrOffset, keyOffset, offsetNodeType, offsetUsablePtr,
    offsetNumberOfKey, offsetParent, offsetPayload, pageSize, rootPageNo,
    getInt32_setInt32_same, getInt32_setInt32_ne, getInt32_setInt64_ne,
    getInt32_write_ne, u32bytes, copyBytes, sub32, int2u32]

/-- The two-slot unrolling of the linear key scan. -/
theorem getKeyIndexGo_two (m : Mem) (page key i : Nat) :
    getKeyIndexGo m page key i 2 =
      if getKey m page (i : Int) = key then some i
      else if getKey m page ((i + 1 : Nat) : Int) = key then some (i + 1)
      else none := rfl

/-- An in-bounds four-byte `blockCopy` out of a page is the four raw
reads. -/
theorem blockCopyFromPage_four (m : Mem) (page srcOffset : Nat)
    (h : srcOffset + 4 ≤ 512) :
    blockCopyFromPage m page srcOffset (List.replicate 4 0) =
      [m.read (page * pageSize + srcOffset),
       m.read (page * pageSize + srcOffset + 1),
       m.read (page * pageSize + srcOffset + 2),
       m.read (page * pageSize + srcOffset + 3)] := by
  unfold blockCopyFromPage
  simp only [List.length_replicate]
  rw [if_neg (by omega)]
  rw [show List.range 4 = [0, 1, 2, 3] from rfl]
  simp [Nat.add_assoc]

/-- C5: splitting the root keeps the root at page 1: for every pre-state
and every pair of distinct child pages in the page area (as produced by
`allocte`) with distinct max keys, `insertAndSplitRoot` leaves the root's
stored page number untouched, marks it internal, gives it exactly two
routing entries — the left child's max key routing to the left page and
the right sibling's max key routing to the right page — and stamps both
children's parent headers with the root page 1. -/
theorem c5_root_split_spec (b : BPlusTree) (L R : Nat)
    (hL : 2 ≤ L) (hL32 : L < 32) (hR : 2 ≤ R) (hR32 : R < 32) (hLR : L ≠ R)
    (hkeys : getMaxKey b.data L ≠ getMaxKey b.data R) :
    getPageNo (insertAndSplitRoot b rootPageNo L R).data rootPageNo
        = getPageNo b.data rootPageNo
    ∧ getNodeType (insertAndSplitRoot b rootPageNo L R).data rootPageNo
        = nodeTypeInternal
    ∧ getNumberOfKey (insertAndSplitRoot b rootPageNo L R).data rootPageNo = 2
    ∧ getKey (insertAndSplitRoot b rootPageNo L R).data rootPageNo 0
        = getMaxKey b.data L
    ∧ getKey (insertAndSplitRoot b rootPageNo L R).data rootPageNo 1
        = getMaxKey b.data R
    ∧ getChild (insertAndSplitRoot b rootPageNo L R).data rootPageNo 0 = L
    ∧ getChild (insertAndSplitRoot b rootPageNo L R).data rootPageNo 1 = R
    ∧ getParent (insertAndSplitRoot b rootPageNo L R).data L = rootPageNo
    ∧ getParent (insertAndSplitRoot b rootPageNo L R).data R = rootPageNo := by
  set M := (insertAndSplitRoot b rootPageNo L R).data with hM
  have hkey0 : getKey M 1 0 = getMaxKey b.data L := by
    rw [hM, insertAndSplitRoot_data]
    simp only [getKey, keyOffset, pageSize, Nat.one_mul]
    norm_num
    rw [getInt64_setInt32_ne _ _ _ _ (by omega),
      getInt64_setInt32_ne _ _ _ _ (by omega)]
    simp [getInt64_setInt32_ne, getInt64_setInt64_ne, getInt64_write_ne,
      u32bytes, copyBytes, getInt64_setInt64_same]
    exact getInt64_lt _ _
  have hkey1 : getKey M 1 1 = getMaxKey b.data R := by
    rw [hM, insertAndSplitRoot_data]
    simp only [getKey, keyOffset, pageSize, Nat.one_mul]
    norm_num
    rw [getInt64_setInt32_ne _ _ _ _ (by omega),
      getInt64_setInt32_ne _ _ _ _ (by omega)]
    simp [getInt64_setInt32_ne, getInt64_setInt64_ne, getInt64_write_ne,
      u32bytes, copyBytes, getInt64_setInt64_same]
    exact getInt64_lt _ _
  have hnum : getNumberOfKey M 1 = 2 := by
    rw [hM, insertAndSplitRoot_data]
    simp only [getNumberOfKey, getPageInt32, pageSize, offsetNumberOfKey,
      Nat.one_mul]
    rw [getInt32_setInt32_ne _ _ _ _ (by omega),
      getInt32_setInt32_ne _ _ _ _ (by omega), getInt32_setInt32_same]
  have hnt : getNodeType M 1 = 1 := by
    rw [hM, insertAndSplitRoot_data]
    simp only [getNodeType, pageSize, offsetNodeType, Nat.one_mul]
    rw [read_setInt32_ne _ _ _ _ (by omega), read_setInt32_ne _ _ _ _ (by omega)]
    simp [read_setInt32_ne, read_setInt64_ne, Mem.read_write, u32bytes,
      copyBytes, nodeTypeInternal]
  have hcell0 : getCellPtr M 1 0 = 500 := by
    rw [hM, insertAndSplitRoot_data]
    simp only [getCellPtr, cellPtrOffset, pageSize, Nat.one_mul]
    norm_num
    rw [getInt32_setInt32_ne _ _ _ _ (by omega),
      getInt32_setInt32_ne _ _ _ _ (by omega)]
    simp [getInt32_setInt32_ne, getInt32_setInt64_ne, getInt32_write_ne,
      u32bytes, copyBytes, getInt32_setInt32_same]
  have hcell1 : getCellPtr M 1 1 = 496 := by
    rw [hM, insertAndSplitRoot_data]
    simp only [getCellPtr, cellPtrOffset, pageSize, Nat.one_mul]
    norm_num
    rw [getInt32_setInt32_ne _ _ _ _ (by omega),
      getInt32_setInt32_ne _ _ _ _ (by omega)]
    simp [getInt32_setInt32_ne, getInt32_setInt64_ne, getInt32_write_ne,
      u32bytes, copyBytes, getInt32_setInt32_same]
  have h1012 : M.read 1012 = L / 16777216 % 256 := by
    rw [hM, insertAndSplitRoot_data]
    rw [read_setInt32_ne _ _ _ _ (by omega), read_setInt32_ne _ _ _ _ (by omega)]
    simp [read_setInt32_ne, read_setInt64_ne, Mem.read_write, u32bytes,
      copyBytes]
    omega
  have h1013 : M.read 1013 = L / 65536 % 256 := by
    rw [hM, insertAndSplitRoot_data]
    rw [read_setInt32_ne _ _ _ _ (by omega), read_setInt32_ne _ _ _ _ (by omega)]
    simp [read_setInt32_ne, read_setInt64_ne, Mem.read_write, u32bytes,
      copyBytes]
    omega
  have h1014 : M.read 1014 = L / 256 % 256 := by
    rw [hM, insertAndSplitRoot_data]
    rw [read_setInt32_ne _ _ _ _ (by omega), read_setInt32_ne _ _ _ _ (by omega)]
    simp [read_setInt32_ne, read_setInt64_ne, Mem.read_write, u32bytes,
      copyBytes]
    omega
  have h1015 : M.read 1015 = L % 256 := by
    rw [hM, insertAndSplitRoot_data]
    rw [read_setInt32_ne _ _ _ _ (by omega), read_setInt32_ne _ _ _ _ (by omega)]
    simp [read_setInt32_ne, read_setInt64_ne, Mem.read_write, u32bytes,
      copyBytes]
    omega
  have h1008 : M.read 1008 = R / 16777216 % 256 := by
    rw [hM, insertAndSplitRoot_data]
    rw [read_setInt32_ne _ _ _ _ (by omega), read_setInt32_ne _ _ _ _ (by omega)]
    simp [read_setInt32_ne, read_setInt64_ne, Mem.read_write, u32bytes,
      copyBytes]
    omega
  have h1009 : M.read 1009 = R / 65536 % 256 := by
    rw [hM, insertAndSplitRoot_data]
    rw [read_setInt32_ne _ _ _ _ (by omega), read_setInt32_ne _ _ _ _ (by omega)]
    simp [read_setInt32_ne, read_setInt64_ne, Mem.read_write, u32bytes,
      copyBytes]
    omega
  have h1010 : M.read 1010 = R / 256 % 256 := by
    rw [hM, insertAndSplitRoot_data]
    rw [read_setInt32_ne _ _ _ _ (by omega), read_setInt32_ne _ _ _ _ (by omega)]
    simp [read_setInt32_ne, read_setInt64_ne, Mem.read_write, u32bytes,
      copyBytes]
    omega
  have h1011 : M.read 1011 = R % 256 := by
    rw [hM, insertAndSplitRoot_data]
    rw [read_setInt32_ne _ _ _ _ (by omega), read_setInt32_ne _ _ _ _ (by omega)]
    simp [read_setInt32_ne, read_setInt64_ne, Mem.read_write, u32bytes,
      copyBytes]
    omega
  have h1 : getPageNo M rootPageNo = getPageNo b.data rootPageNo := by
    rw [hM, insertAndSplitRoot_data]
    simp only [getPageNo, getPageInt32, rootPageNo, pageSize, offsetPageNo,
      Nat.mul_one, Nat.one_mul, Nat.add_zero]
    rw [getInt32_setInt32_ne _ _ _ _ (by omega),
      getInt32_setInt32_ne _ _ _ _ (by omega)]
    simp [getInt32_setInt32_ne, getInt32_setInt64_ne, getInt32_write_ne,
      u32bytes, copyBytes]
  have h2 : getNodeType M rootPageNo = nodeTypeInternal := by
    rw [hM, insertAndSplitRoot_data]
    simp only [getNodeType, rootPageNo, pageSize, offsetNodeType, Nat.one_mul]
    rw [read_setInt32_ne _ _ _ _ (by omega), read_setInt32_ne _ _ _ _ (by omega)]
    simp [read_setInt32_ne, read_setInt64_ne, Mem.read_write, u32bytes,
      copyBytes, nodeTypeInternal]
  have h6 : getChild M 1 0 = L := by
    have hidx : getKeyIndex M 1 (getMaxKey b.data L) = some 0 := by
      unfold getKeyIndex
      rw [hnum, getKeyIndexGo_two]
      norm_num
      rw [hkey0]
    simp only [getChild, getChildByIndex, getChildByKey]
    rw [hkey0]
    simp only [getKeyCell, hidx]
    norm_num
    rw [hnt, hcell0]
    simp only [nodeTypeLeaf]
    rw [if_neg (by norm_num)]
    rw [blockCopyFromPage_four _ _ _ (by omega)]
    simp only [pageSize, Nat.one_mul]
    norm_num
    simp [cellUint32, h1012, h1013, h1014, h1015]
    omega
  have h7 : getChild M 1 1 = R := by
    have hidx : getKeyIndex M 1 (getMaxKey b.data R) = some 1 := by
      unfold getKeyIndex
      rw [hnum, getKeyIndexGo_two]
      norm_num
      rw [hkey0, hkey1, if_neg hkeys]
      simp
    simp only [getChild, getChildByIndex, getChildByKey]
    rw [hkey1]
    simp only [getKeyCell, hidx]
    norm_num
    rw [hnt, hcell1]
    simp only [nodeTypeLeaf]
    rw [if_neg (by norm_num)]
    rw [blockCopyFromPage_four _ _ _ (by omega)]
    simp only [pageSize, Nat.one_mul]
    norm_num
    simp [cellUint32, h1008, h1009, h1010, h1011]
    omega
  have h8 : getParent M L = rootPageNo := by
    rw [hM, insertAndSplitRoot_data]
    simp only [getParent, getPageInt32, rootPageNo, offsetParent, pageSize]
    rw [getInt32_setInt32_ne _ _ _ _ (by omega), getInt32_setInt32_same]
  have h9 : getParent M R = rootPageNo := by
    rw [hM, insertAndSplitRoot_data]
    simp only [getParent, getPageInt32, rootPageNo, offsetParent, pageSize]
    rw [getInt32_setInt32_same]
  exact ⟨h1, h2, hnum, hkey0, hkey1, h6, h7, h8, h9⟩

/-- A concrete pre-state for the root-split contract: page 2 carries max
key 5 (its last header key byte), page 3 carries max key 0. -/
def c5base : BPlusTree := { data := Mem.write 0 1055 5, leaf := 0, order := 3 }

/-- The root-split contract instantiated at the concrete pre-state. -/
theorem c5_root_split_spec_witness :
    (2 ≤ 2 ∧ 2 < 32 ∧ 2 ≤ 3 ∧ 3 < 32 ∧ 2 ≠ 3
      ∧ getMaxKey c5base.data 2 ≠ getMaxKey c5base.data 3)
    ∧ (getPageNo (insertAndSplitRoot c5base rootPageNo 2 3).data rootPageNo
        = getPageNo c5base.data rootPageNo
    ∧ getNodeType (insertAndSplitRoot c5base rootPageNo 2 3).data rootPageNo
        = nodeTypeInternal
    ∧ getNumberOfKey (insertAndSplitRoot c5base rootPageNo 2 3).data rootPageNo = 2
    ∧ getKey (insertAndSplitRoot c5base rootPageNo 2 3).data rootPageNo 0
        = getMaxKey c5base.data 2
    ∧ getKey (insertAndSplitRoot c5base rootPageNo 2 3).data rootPageNo 1
        = getMaxKey c5base.data 3
    ∧ getChild (insertAndSplitRoot c5base rootPageNo 2 3).data rootPageNo 0 = 2
    ∧ getChild (insertAndSplitRoot c5base rootPageNo 2 3).data rootPageNo 1 = 3
    ∧ getParent (insertAndSplitRoot c5base rootPageNo 2 3).data 2 = rootPageNo
    ∧ getParent (insertAndSplitRoot c5base rootPageNo 2 3).data 3 = rootPageNo) :=
  ⟨⟨by decide, by decide, by decide, by decide, by decide, by decide⟩,
   c5_root_split_spec c5base 2 3 (by decide) (by decide) (by decide)
     (by decide) (by decide) (by decide)⟩

end Gosqlite
